import Mathlib

/-!
# underwater_color_enhance : `NewModel`

A shallow embedding of `src/NewModel.cpp` and a verification of its specification.

Conventions of the embedding.

* Numbers.  `float` / `double` values are elements of an ordered field `α` carrying a floor
  function (arithmetic is exact, there is no rounding and no NaN).  The definitions are
  computable: they are evaluated at `α = ℚ` and reasoned about at `α = ℝ`.
* Text.  A number written in the XML document is kept as the number that its text denotes:
  the value rounded to six significant decimal digits (format `"%g"`).
* Undefined behaviour.  `est_attenuation`, whose reads of a table entry can be out of bounds,
  returns an `Option` (`none` is the out-of-bounds read), and so do its callers; `load_data`
  returns `none` when it dereferences a null pointer.  The reads of the scene tables are in
  bounds under the length hypotheses of the theorems about them.
* `exp` and `log` of `<math.h>` are arguments of the definitions using them; the theorems
  instantiate them with `Real.exp` and `Real.log`.
* Indexable containers of numbers (`cv::Scalar`, `backscatter_att`, ...) are functions from the
  index; the code only ever reads and writes the indices `0`, `1`, `2` (blue, green, red).
* Member variables of the `NewModel` instance are the fields of the structure `NewModel`;
  a `void` member function is a function returning the new instance state.
* Results of OpenCV image reductions (`mean` of a patch) and of the dlib solver are arguments.
-/

namespace underwater_color_enhance

/-! ## Data model -/

/-- The type `cv::Scalar`: channel index to value. -/
abbrev Scalar (α : Type) := ℕ → α

/-- The type `dlib::matrix<double, 2, 1>` used for `input_vector`: entries `(0)` and `(1)`. -/
abbrev input_vector (α : Type) := α × α

/-- The type `dlib::matrix<double, 2, 1>` used for `parameter_vector`. -/
abbrev parameter_vector (α : Type) := α × α

/-- Nodes of a TinyXML document: the declaration node, and elements with a tag name, an
attribute list and child nodes.  An attribute holds the number denoted by its text (TinyXML
stores attribute values as text); the documents written by `NewModel` have no other kind of
node. -/
inductive TiXmlNode (α : Type) where
  | declaration : TiXmlNode α
  | element (value : String) (attributes : List (String × α))
      (children : List (TiXmlNode α)) : TiXmlNode α

/-- Modelled from the spec: the mapped type of `att_map`, declared in `NewModel.h`, which is not
among the sources.  The spec describes it as a 6-tuple of coefficients (3 backscatter, then 3
direct-signal) and line 709 assigns a six-element brace list to it: a sequence of numbers.
Reading the element `v[i]` is `v[i]?`: beyond the end of the sequence the read is out of bounds
(undefined behaviour) and has no value. -/
abbrev att_entry (α : Type) := List α

/-- The fields of `this->scene` read by `NewModel`. -/
structure Scene (α : Type) where
  WAVELENGTHS : List α
  b_sca : List α
  b_att : List α
  irradiance : List α
  camera_response : List (Scalar α)
  K : α
  WAVELENGTHS_SUB : α
  DISTANCE : α

/-- The member variables of a `NewModel` instance. -/
structure NewModel (α : Type) where
  scene : Scene α
  EST_VEILING_LIGHT : Bool
  PRIOR_DATA : Bool
  SAVE_DATA : Bool
  OPTIMIZE : Bool
  file_initialized : Bool
  RANGE : α
  COLOR_1_TRUTH : ℕ → α
  COLOR_2_TRUTH : ℕ → α
  depth : α
  depth_max_range : α
  observed_input : input_vector α
  observed_samples_blue : List (input_vector α × α)
  observed_samples_green : List (input_vector α × α)
  observed_samples_red : List (input_vector α × α)
  backscatter_att : ℕ → α
  direct_signal_att : ℕ → α
  att_map : α → Option (att_entry α)
  out_doc : List (TiXmlNode α)

/-! ## The least-squares model of the optimiser -/

/-- The function `model` (lines 25-36). -/
def model {α : Type} [Field α] (input : input_vector α) (params : parameter_vector α) : α :=
  let backscatter_val := params.1
  let direct_signal_val := params.2
  let observed_color := input.1
  let wideband_veiling_light := input.2
  let correct_color := (observed_color - (wideband_veiling_light * backscatter_val)) / direct_signal_val
  correct_color

/-- The function `residual` (lines 39-42). -/
def residual {α : Type} [Field α] (data : input_vector α × α) (params : parameter_vector α) : α :=
  model data.1 params - data.2

/-! ## Spectral veiling light -/

/-- The function `NewModel::calc_wideband_veiling_light` (lines 560-577).  `v[i]` on a
`std::vector` is `getD i 0` and `v.back()` is `getLastD 0`; the loop `for (i = 1; i < size - 1; i++)`
runs over `List.range' 1 (size - 1 - 1)`.  (An empty table makes line 562 read out of bounds,
so the wrap-around of `size - 1` at `size = 0` is not modelled.) -/
def calc_wideband_veiling_light {α : Type} [Field α] (scene : Scene α) : Scalar α :=
  let temp_cur := scene.b_sca.getD 0 0 * scene.irradiance.getD 0 0 / scene.b_att.getD 0 0
  let wideband_veiling_light : Scalar α := fun c => scene.camera_response.getD 0 0 c * temp_cur
  let wideband_veiling_light : Scalar α :=
    (List.range' 1 (scene.WAVELENGTHS.length - 1 - 1)).foldl
      (fun (acc : Scalar α) i =>
        let temp_cur := scene.b_sca.getD i 0 * scene.irradiance.getD i 0 / scene.b_att.getD i 0
        fun c => acc c + 2 * scene.camera_response.getD i 0 c * temp_cur)
      wideband_veiling_light
  let temp_cur := scene.b_sca.getLastD 0 * scene.irradiance.getLastD 0 / scene.b_att.getLastD 0
  let wideband_veiling_light : Scalar α :=
    fun c => wideband_veiling_light c + scene.camera_response.getLastD 0 c * temp_cur
  fun c => wideband_veiling_light c * (1 / scene.K * scene.WAVELENGTHS_SUB)

/-! ## Closed-form calibration -/

/-- One iteration of the first loop of `calc_attenuation` (lines 586-589). -/
def calc_attenuation_bs {α : Type} [Field α] (log : α → α)
    (color_1_obs color_2_obs wideband_veiling_light : Scalar α)
    (m : NewModel α) (i : ℕ) : NewModel α :=
  let channel_bs := (m.COLOR_1_TRUTH i * color_2_obs i) - (m.COLOR_2_TRUTH i * color_1_obs i) +
    (m.COLOR_2_TRUTH i - m.COLOR_1_TRUTH i) * wideband_veiling_light i
  let channel_bs := channel_bs / ((m.COLOR_2_TRUTH i - m.COLOR_1_TRUTH i) * wideband_veiling_light i)
  { m with backscatter_att :=
      Function.update m.backscatter_att i (-1 * log channel_bs / m.scene.DISTANCE) }

/-- One iteration of the second loop of `calc_attenuation` (lines 596-599). -/
def calc_attenuation_ds {α : Type} [Field α] (exp log : α → α)
    (color_2_obs wideband_veiling_light : Scalar α)
    (m : NewModel α) (i : ℕ) : NewModel α :=
  let channel_ds := color_2_obs i - wideband_veiling_light i *
    (1 - exp (-1 * m.backscatter_att i * m.scene.DISTANCE))
  let channel_ds := channel_ds / m.COLOR_2_TRUTH i
  { m with direct_signal_att :=
      Function.update m.direct_signal_att i (-1 * log channel_ds / m.scene.DISTANCE) }

/-- The function `NewModel::calc_attenuation` (lines 580-601): two loops over the channels
`0, 1, 2`. -/
def calc_attenuation {α : Type} [Field α] (exp log : α → α) (m : NewModel α)
    (color_1_obs color_2_obs wideband_veiling_light : Scalar α) : NewModel α :=
  let m1 := (List.range 3).foldl
    (calc_attenuation_bs log color_1_obs color_2_obs wideband_veiling_light) m
  (List.range 3).foldl (calc_attenuation_ds exp log color_2_obs wideband_veiling_light) m1

/-! ## Calibration store lookup -/

/-- The C function `roundf`: nearest integer, halfway cases away from zero. -/
def roundf {α : Type} [LinearOrderedField α] [FloorRing α] (x : α) : α :=
  if 0 ≤ x then ((⌊x + 1 / 2⌋ : ℤ) : α) else -((⌊-x + 1 / 2⌋ : ℤ) : α)

/-- The local `round_depth` of `est_attenuation` (lines 608-609); the same two statements
initialise `depth_max_range` on lines 118-119. -/
def round_depth {α : Type} [LinearOrderedField α] [FloorRing α] (depth : α) : α :=
  let round_depth := |(depth + 0.5) * 2|
  let round_depth := roundf (round_depth * 1) / 2
  round_depth

/-- The expression `this->att_map[k]` (`std::map::operator[]`): the entry stored under `k`;
when there is none, the value-initialised entry `dflt` of the mapped type is inserted under `k`
and returned.  No error is raised.  (The value `dflt` is an argument, the mapped type being
declared in the header: it is the empty sequence for a `std::vector`, six zeros for a fixed
6-tuple.) -/
def att_map_index {α : Type} [DecidableEq α] (dflt : att_entry α) (m : NewModel α) (k : α) :
    att_entry α × NewModel α :=
  match m.att_map k with
  | some v => (v, m)
  | none => (dflt, { m with att_map := Function.update m.att_map k (some dflt) })

/-- The function `NewModel::est_attenuation` (lines 606-618).  The result is `none` when one
of the six reads `att_map[round_depth][i]` is beyond the end of the entry (undefined behaviour
of the program); the function has no other exit than its return: it neither tests whether the
key is present nor raises anything. -/
def est_attenuation {α : Type} [LinearOrderedField α] [FloorRing α] (dflt : att_entry α)
    (m : NewModel α) : Option (NewModel α) := do
  let round_depth := round_depth m.depth
  let (e, m) := att_map_index dflt m round_depth
  let x ← e[0]?
  let m := { m with backscatter_att := Function.update m.backscatter_att 0 x }
  let (e, m) := att_map_index dflt m round_depth
  let x ← e[1]?
  let m := { m with backscatter_att := Function.update m.backscatter_att 1 x }
  let (e, m) := att_map_index dflt m round_depth
  let x ← e[2]?
  let m := { m with backscatter_att := Function.update m.backscatter_att 2 x }
  let (e, m) := att_map_index dflt m round_depth
  let x ← e[3]?
  let m := { m with direct_signal_att := Function.update m.direct_signal_att 0 x }
  let (e, m) := att_map_index dflt m round_depth
  let x ← e[4]?
  let m := { m with direct_signal_att := Function.update m.direct_signal_att 1 x }
  let (e, m) := att_map_index dflt m round_depth
  let x ← e[5]?
  let m := { m with direct_signal_att := Function.update m.direct_signal_att 2 x }
  return m

/-! ## Persistence -/

/-- The function `NewModel::initialize_file` (lines 621-627). -/
def initialize_file {α : Type} (m : NewModel α) : NewModel α :=
  let decl : TiXmlNode α := TiXmlNode.declaration
  let m := { m with out_doc := m.out_doc ++ [decl] }
  { m with file_initialized := true }

/-- Rounding to the nearest integer, a halfway case going to the even neighbour (the rounding
of a decimal conversion by `printf`). -/
def round_half_even {α : Type} [LinearOrderedField α] [FloorRing α] (x : α) : ℤ :=
  if x - (⌊x⌋ : α) < 1 / 2 then ⌊x⌋
  else if 1 / 2 < x - (⌊x⌋ : α) then ⌊x⌋ + 1
  else if ⌊x⌋ % 2 = 0 then ⌊x⌋
  else ⌊x⌋ + 1

/-- The number denoted by the text that `printf` writes for `x` with the format `"%g"`: `x`
rounded to six significant decimal digits (`e` is the decimal exponent of `x`, `digits` its
six leading digits after rounding). -/
def printf_g {α : Type} [LinearOrderedField α] [FloorRing α] (x : α) : α :=
  if x = 0 then 0
  else
    let e := Int.log 10 |x|
    let digits := round_half_even (|x| * (10 : α) ^ (5 - e))
    if 0 < x then (digits : α) * (10 : α) ^ (e - 5) else -((digits : α) * (10 : α) ^ (e - 5))

/-- The method `TiXmlElement::SetDoubleAttribute`: the attribute of that name gets the value, a
new attribute is added at the end when there is none.  TinyXML stores the value as the text
written by `printf` with the format `"%g"`, so the attribute holds `printf_g val`. -/
def SetDoubleAttribute {α : Type} [LinearOrderedField α] [FloorRing α]
    (attributes : List (String × α)) (name : String) (val : α) : List (String × α) :=
  if attributes.any (fun a => a.1 == name) then
    attributes.map (fun a => if a.1 == name then (name, printf_g val) else a)
  else attributes ++ [(name, printf_g val)]

/-- The function `NewModel::set_data_to_file` (lines 630-655): one `Depth` element, with its
two children, is linked at the end of `out_doc`. -/
def set_data_to_file {α : Type} [LinearOrderedField α] [FloorRing α] (m : NewModel α) :
    NewModel α :=
  let data_depth_attributes : List (String × α) :=
    if m.OPTIMIZE then SetDoubleAttribute [] "val" m.depth_max_range
    else SetDoubleAttribute [] "val" m.depth
  let a := SetDoubleAttribute [] "blue" (m.backscatter_att 0)
  let a := SetDoubleAttribute a "green" (m.backscatter_att 1)
  let a := SetDoubleAttribute a "red" (m.backscatter_att 2)
  let data_backscatter_att : TiXmlNode α := TiXmlNode.element "Backscatter_Attenuation" a []
  let a := SetDoubleAttribute [] "blue" (m.direct_signal_att 0)
  let a := SetDoubleAttribute a "green" (m.direct_signal_att 1)
  let a := SetDoubleAttribute a "red" (m.direct_signal_att 2)
  let data_direct_signal_att : TiXmlNode α := TiXmlNode.element "Direct_Signal_Attenuation" a []
  let data_depth : TiXmlNode α :=
    TiXmlNode.element "Depth" data_depth_attributes [data_backscatter_att, data_direct_signal_att]
  { m with out_doc := m.out_doc ++ [data_depth] }

/-- The block `if (this->SAVE_DATA) { ... }` of lines 196-206, 355-363 and 544-552. -/
def save_data {α : Type} [LinearOrderedField α] [FloorRing α] (m : NewModel α) : NewModel α :=
  if m.SAVE_DATA then
    let m := if !m.file_initialized then initialize_file m else m
    set_data_to_file m
  else m

/-- The method `TiXmlElement::QueryDoubleAttribute (name, &d)`: the new value of `d`, which is
the number denoted by the text of the attribute, and is left as it was when the element has no
attribute of that name. -/
def QueryDoubleAttribute {α : Type} (attributes : List (String × α)) (name : String) (d : α) : α :=
  match attributes.find? (fun a => a.1 == name) with
  | some a => a.2
  | none => d

/-- The method `FirstChildElement (name)` on a child list, and `NextSiblingElement (name)` on
the list of the following siblings: the attributes of the first element of that name, together
with the siblings after it; `none` is the null pointer. -/
def FirstChildElement {α : Type} (name : String) :
    List (TiXmlNode α) → Option (List (String × α) × List (TiXmlNode α))
  | [] => none
  | TiXmlNode.declaration :: rest => FirstChildElement name rest
  | TiXmlNode.element value attributes _ :: rest =>
      if value == name then some (attributes, rest) else FirstChildElement name rest

/-- The locals `m_depth, bs_blue, ..., ds_red` of `load_data` (lines 680-682). -/
structure load_locals (α : Type) where
  m_depth : α
  bs_blue : α
  bs_green : α
  bs_red : α
  ds_blue : α
  ds_green : α
  ds_red : α

/-- The loop of `load_data` (lines 689-710) from the node `pDepthNode` on: the argument lists
that node and its following siblings (`NextSiblingElement ()` skips the nodes that are not
elements).  The result is `none` when line 701 dereferences a null `pAttNode`. -/
def load_data_loop {α : Type} [DecidableEq α] (l : load_locals α)
    (att_map : α → Option (att_entry α)) :
    List (TiXmlNode α) → Option (α → Option (att_entry α))
  | [] => some att_map
  | TiXmlNode.declaration :: rest => load_data_loop l att_map rest
  | TiXmlNode.element _ attributes children :: rest =>
      let l := { l with m_depth := QueryDoubleAttribute attributes "val" l.m_depth }
      match FirstChildElement "Backscatter_Attenuation" children with
      | none => none
      | some (a, siblings) =>
          let l := { l with bs_blue := QueryDoubleAttribute a "blue" l.bs_blue }
          let l := { l with bs_green := QueryDoubleAttribute a "green" l.bs_green }
          let l := { l with bs_red := QueryDoubleAttribute a "red" l.bs_red }
          let l :=
            match FirstChildElement "Direct_Signal_Attenuation" siblings with
            | none => l
            | some (a, _) =>
                let l := { l with ds_blue := QueryDoubleAttribute a "blue" l.ds_blue }
                let l := { l with ds_green := QueryDoubleAttribute a "green" l.ds_green }
                { l with ds_red := QueryDoubleAttribute a "red" l.ds_red }
          load_data_loop l
            (Function.update att_map l.m_depth
              (some [l.bs_blue, l.bs_green, l.bs_red, l.ds_blue, l.ds_green, l.ds_red])) rest

/-- The nodes from the first child element named `name` on: the start of the loop,
`pDepthNode = in_doc->FirstChildElement ("Depth")`. -/
def from_first_child_element {α : Type} (name : String) : List (TiXmlNode α) → List (TiXmlNode α)
  | [] => []
  | TiXmlNode.declaration :: rest => from_first_child_element name rest
  | TiXmlNode.element value attributes children :: rest =>
      if value == name then TiXmlNode.element value attributes children :: rest
      else from_first_child_element name rest

/-- The function `NewModel::load_data` (lines 664-716) on a document that `LoadFile` could
read, given as the list `in_doc` of its top-level nodes; `uninit` holds the indeterminate
initial values of the locals.  The result is `none` when the loop dereferences a null pointer. -/
def load_data {α : Type} [DecidableEq α] (uninit : load_locals α) (m : NewModel α)
    (in_doc : List (TiXmlNode α)) : Option (NewModel α) :=
  match load_data_loop uninit m.att_map (from_first_child_element "Depth" in_doc) with
  | none => none
  | some att_map => some { m with att_map := att_map }

/-! ## Nonlinear refinement over a depth band -/

/-- The block computing `wideband_veiling_light` (lines 70-85, 247-262): the mean of the
background region, which is the argument `background_mean`, or the spectral integral. -/
def veiling_light {α : Type} [Field α] (m : NewModel α) (background_mean : Scalar α) : Scalar α :=
  if m.EST_VEILING_LIGHT then background_mean else calc_wideband_veiling_light m.scene

/-- The function `NewModel::calculate_optimized_attenuation` (lines 45-215).  The arguments
`background_mean`, `color_1_obs`, `color_2_obs` are the means of the three image regions;
`solve_least_squares_lm residual samples x` is the parameter vector that
`dlib::solve_least_squares_lm` leaves in its last argument when started at `x`. -/
def calculate_optimized_attenuation {α : Type} [LinearOrderedField α] [FloorRing α]
    (solve_least_squares_lm : (input_vector α × α → parameter_vector α → α) →
      List (input_vector α × α) → parameter_vector α → parameter_vector α)
    (m : NewModel α) (background_mean color_1_obs color_2_obs : Scalar α) : NewModel α :=
  let wideband_veiling_light := veiling_light m background_mean
  let m :=
    if m.depth_max_range = -1 then
      let m := { m with depth_max_range := |(m.depth + 0.5) * 2| }
      { m with depth_max_range := roundf (m.depth_max_range * 1) / 2 }
    else m
  if m.depth < m.depth_max_range ∧ m.depth > m.depth_max_range - m.RANGE then
    -- Blue channel observations
    let m := { m with observed_input := (color_1_obs 0, m.observed_input.2) }
    let m := { m with observed_input := (m.observed_input.1, wideband_veiling_light 0) }
    let m := { m with observed_samples_blue :=
      m.observed_samples_blue ++ [(m.observed_input, m.COLOR_1_TRUTH 0)] }
    let m := { m with observed_input := (color_2_obs 0, m.observed_input.2) }
    let m := { m with observed_samples_blue :=
      m.observed_samples_blue ++ [(m.observed_input, m.COLOR_2_TRUTH 0)] }
    -- Green channel observations
    let m := { m with observed_input := (color_1_obs 1, m.observed_input.2) }
    let m := { m with observed_input := (m.observed_input.1, wideband_veiling_light 1) }
    let m := { m with observed_samples_green :=
      m.observed_samples_green ++ [(m.observed_input, m.COLOR_1_TRUTH 1)] }
    let m := { m with observed_input := (color_2_obs 1, m.observed_input.2) }
    let m := { m with observed_samples_green :=
      m.observed_samples_green ++ [(m.observed_input, m.COLOR_2_TRUTH 1)] }
    -- Red channel observations
    let m := { m with observed_input := (color_1_obs 2, m.observed_input.2) }
    let m := { m with observed_input := (m.observed_input.1, wideband_veiling_light 2) }
    let m := { m with observed_samples_red :=
      m.observed_samples_red ++ [(m.observed_input, m.COLOR_1_TRUTH 2)] }
    let m := { m with observed_input := (color_2_obs 2, m.observed_input.2) }
    let m := { m with observed_samples_red :=
      m.observed_samples_red ++ [(m.observed_input, m.COLOR_2_TRUTH 2)] }
    m
  else if m.depth > m.depth_max_range then
    -- Blue channel optimization
    let optimized_att : parameter_vector α := (1, 1)
    let optimized_att := solve_least_squares_lm residual m.observed_samples_blue optimized_att
    let m := { m with backscatter_att := Function.update m.backscatter_att 0 optimized_att.1 }
    let m := { m with direct_signal_att := Function.update m.direct_signal_att 0 optimized_att.2 }
    -- Green channel optimization
    let optimized_att : parameter_vector α := (1, 1)
    let optimized_att := solve_least_squares_lm residual m.observed_samples_green optimized_att
    let m := { m with backscatter_att := Function.update m.backscatter_att 1 optimized_att.1 }
    let m := { m with direct_signal_att := Function.update m.direct_signal_att 1 optimized_att.2 }
    -- Red channel optimization
    let optimized_att : parameter_vector α := (1, 1)
    let optimized_att := solve_least_squares_lm residual m.observed_samples_red optimized_att
    let m := { m with backscatter_att := Function.update m.backscatter_att 2 optimized_att.1 }
    let m := { m with direct_signal_att := Function.update m.direct_signal_att 2 optimized_att.2 }
    let m := save_data m
    -- Reinitialize samples and depth range
    let m := { m with observed_samples_blue := [] }
    let m := { m with observed_samples_green := [] }
    let m := { m with observed_samples_red := [] }
    { m with depth_max_range := m.depth_max_range + m.RANGE }
  else m

/-! ## Uniform-distance correction -/

/-- The expression `1.0 - exp(-1.0 * backscatter_att[c] * DISTANCE)` of lines 315-317. -/
def backscatter_val {α : Type} [Field α] (exp : α → α) (backscatter_att DISTANCE : α) : α :=
  1 - exp (-1 * backscatter_att * DISTANCE)

/-- The expression `exp(-1.0 * direct_signal_att[c] * DISTANCE)` of lines 319-321. -/
def direct_signal_val {α : Type} [Field α] (exp : α → α) (direct_signal_att DISTANCE : α) : α :=
  exp (-1 * direct_signal_att * DISTANCE)

/-- The per-channel formula of lines 324-326, at one pixel value `bgr` of the channel plane:
`(bgr[c] - (wideband_veiling_light[c] * backscatter_val)) / direct_signal_val`. -/
def corrected_bgr {α : Type} [Field α] (exp : α → α) (bgr wideband_veiling_light : α)
    (backscatter_att direct_signal_att DISTANCE : α) : α :=
  (bgr - (wideband_veiling_light * backscatter_val exp backscatter_att DISTANCE)) /
    direct_signal_val exp direct_signal_att DISTANCE

/-- The function `NewModel::color_correct` (lines 220-366).  The image is given by its three
channel planes `bgr 0`, `bgr 1`, `bgr 2` (each the list of its pixel values); the result is the
three corrected planes and the new instance state, or `none` when `est_attenuation` reads an
entry out of bounds. -/
def color_correct {α : Type} [LinearOrderedField α] [FloorRing α] (exp log : α → α)
    (dflt : att_entry α) (m : NewModel α) (bgr : ℕ → List α)
    (background_mean color_1_obs color_2_obs : Scalar α) :
    Option ((ℕ → List α) × NewModel α) :=
  let wideband_veiling_light := veiling_light m background_mean
  let calibrated : Option (NewModel α) :=
    if m.PRIOR_DATA then est_attenuation dflt m
    else some (calc_attenuation exp log m color_1_obs color_2_obs wideband_veiling_light)
  match calibrated with
  | none => none
  | some m =>
    let corrected : ℕ → List α := fun c =>
      if c < 3 then
        (bgr c).map (fun x => corrected_bgr exp x (wideband_veiling_light c)
          (m.backscatter_att c) (m.direct_signal_att c) m.scene.DISTANCE)
      else []
    some (corrected, save_data m)

/-! ## Spatially-varying correction -/

/-- The three statements computing a backscatter matrix (lines 495-497, 498-500, 501-503):
`-1.0 * backscatter_att[c] * img_voronoi`, then `cv::exp` in place, then `1.0 - ...`, each
element-wise on the distance field. -/
def slam_backscatter_val {α : Type} [Field α] (exp : α → α) (backscatter_att : α)
    (img_voronoi : List α) : List α :=
  let backscatter_val := img_voronoi.map (fun d => -1 * backscatter_att * d)
  let backscatter_val := backscatter_val.map exp
  let backscatter_val := backscatter_val.map (fun e => 1 - e)
  backscatter_val

/-- The two statements computing a direct-signal matrix (lines 505-506, 507-508, 509-510):
`-1.0 * direct_signal_att[c] * img_voronoi`, then `cv::exp` in place. -/
def slam_direct_signal_val {α : Type} [Field α] (exp : α → α) (direct_signal_att : α)
    (img_voronoi : List α) : List α :=
  let direct_signal_val := img_voronoi.map (fun d => -1 * direct_signal_att * d)
  let direct_signal_val := direct_signal_val.map exp
  direct_signal_val

/-- The per-channel formula of lines 513-515 on a channel plane, element-wise:
`(bgr[c] - (wideband_veiling_light[c] * backscatter_val)) / direct_signal_val`. -/
def slam_corrected_bgr {α : Type} [Field α] (bgr : List α) (wideband_veiling_light : α)
    (backscatter_val direct_signal_val : List α) : List α :=
  List.zipWith (fun x ds => x / ds)
    (List.zipWith (fun x bs => x - (wideband_veiling_light * bs)) bgr backscatter_val)
    direct_signal_val

/-- The function `NewModel::color_correct_slam` (lines 371-555).  The image is given by its
three channel planes; `img_voronoi` is the dense distance field that lines 379-404 obtain from
`point_data` and `distance_data` with `cv::Subdiv2D` and `cv::fillConvexPoly` (one value per
pixel, in the pixel order of the planes; `0` where no polygon was filled).  The result is
`none` when `est_attenuation` reads an entry out of bounds. -/
def color_correct_slam {α : Type} [LinearOrderedField α] [FloorRing α] (exp log : α → α)
    (dflt : att_entry α) (m : NewModel α) (bgr : ℕ → List α) (img_voronoi : List α)
    (background_mean color_1_obs color_2_obs : Scalar α) :
    Option ((ℕ → List α) × NewModel α) :=
  let wideband_veiling_light := veiling_light m background_mean
  let calibrated : Option (NewModel α) :=
    if m.PRIOR_DATA then est_attenuation dflt m
    else some (calc_attenuation exp log m color_1_obs color_2_obs wideband_veiling_light)
  match calibrated with
  | none => none
  | some m =>
    let blue_backscatter_val := slam_backscatter_val exp (m.backscatter_att 0) img_voronoi
    let green_backscatter_val := slam_backscatter_val exp (m.backscatter_att 1) img_voronoi
    let red_backscatter_val := slam_backscatter_val exp (m.backscatter_att 2) img_voronoi
    let blue_direct_signal_val := slam_direct_signal_val exp (m.direct_signal_att 0) img_voronoi
    let green_direct_signal_val :=
      slam_direct_signal_val exp (m.direct_signal_att 1) img_voronoi
    let red_direct_signal_val := slam_direct_signal_val exp (m.direct_signal_att 2) img_voronoi
    let corrected : ℕ → List α := fun c =>
      if c = 0 then
        slam_corrected_bgr (bgr 0) (wideband_veiling_light 0) blue_backscatter_val
          blue_direct_signal_val
      else if c = 1 then
        slam_corrected_bgr (bgr 1) (wideband_veiling_light 1) green_backscatter_val
          green_direct_signal_val
      else if c = 2 then
        slam_corrected_bgr (bgr 2) (wideband_veiling_light 2) red_backscatter_val
          red_direct_signal_val
      else []
    some (corrected, save_data m)

/-! ## Branches of the refinement and arguments of the logarithms -/

/-- The block initialising `depth_max_range` (lines 116-120). -/
def init_depth_max_range {α : Type} [LinearOrderedField α] [FloorRing α] (m : NewModel α) :
    NewModel α :=
  if m.depth_max_range = -1 then
    let m := { m with depth_max_range := |(m.depth + 0.5) * 2| }
    { m with depth_max_range := roundf (m.depth_max_range * 1) / 2 }
  else m

/-- Whether a call of `calculate_optimized_attenuation` on the state `m` executes the
least-squares branch: after lines 116-120 the test of line 122 fails and the test of line 157
succeeds. -/
def fit_branch_taken {α : Type} [LinearOrderedField α] [FloorRing α] (m : NewModel α) : Bool :=
  let m := init_depth_max_range m
  !(decide (m.depth < m.depth_max_range ∧ m.depth > m.depth_max_range - m.RANGE)) &&
    decide (m.depth > m.depth_max_range)

/-- The argument of the logarithm of line 589: the value of `channel_bs` after line 588. -/
def channel_bs {α : Type} [Field α] (m : NewModel α)
    (color_1_obs color_2_obs wideband_veiling_light : Scalar α) (i : ℕ) : α :=
  let channel_bs := (m.COLOR_1_TRUTH i * color_2_obs i) - (m.COLOR_2_TRUTH i * color_1_obs i) +
    (m.COLOR_2_TRUTH i - m.COLOR_1_TRUTH i) * wideband_veiling_light i
  let channel_bs := channel_bs / ((m.COLOR_2_TRUTH i - m.COLOR_1_TRUTH i) * wideband_veiling_light i)
  channel_bs

/-- The argument of the logarithm of line 599: the value of `channel_ds` after line 598, in a
state `m` whose `backscatter_att` the first loop has already set. -/
def channel_ds {α : Type} [Field α] (exp : α → α) (m : NewModel α)
    (color_2_obs wideband_veiling_light : Scalar α) (i : ℕ) : α :=
  let channel_ds := color_2_obs i - wideband_veiling_light i *
    (1 - exp (-1 * m.backscatter_att i * m.scene.DISTANCE))
  let channel_ds := channel_ds / m.COLOR_2_TRUTH i
  channel_ds

/-! ## Reference quantities of the specification -/

/-- The integrand `f(i)` of the specification at wavelength index `i` and channel `c`:
`b_sca[i] * irradiance[i] / b_att[i] * camera_response[i][c]`. -/
def spectral_term {α : Type} [Field α] (scene : Scene α) (c i : ℕ) : α :=
  scene.b_sca.getD i 0 * scene.irradiance.getD i 0 / scene.b_att.getD i 0 *
    scene.camera_response.getD i 0 c

/-- The value that `set_data_to_file` writes in the attribute `val` of the `Depth` record:
`depth_max_range` when `OPTIMIZE` is set, `depth` otherwise (lines 635-642). -/
def saved_val {α : Type} (m : NewModel α) : α :=
  if m.OPTIMIZE then m.depth_max_range else m.depth

/-- The 6-tuple that `set_data_to_file` writes in a record: backscatter blue, green, red, then
direct-signal blue, green, red. -/
def saved_tuple {α : Type} (m : NewModel α) : att_entry α :=
  [m.backscatter_att 0, m.backscatter_att 1, m.backscatter_att 2,
   m.direct_signal_att 0, m.direct_signal_att 1, m.direct_signal_att 2]

/-- The value of the attribute `val` as the saved document holds it: the number denoted by
the `"%g"` text of `saved_val`. -/
def rendered_val {α : Type} [LinearOrderedField α] [FloorRing α] (m : NewModel α) : α :=
  printf_g (saved_val m)

/-- The 6-tuple as the saved document holds it: each coefficient replaced by the number
denoted by its `"%g"` text. -/
def rendered_tuple {α : Type} [LinearOrderedField α] [FloorRing α] (m : NewModel α) :
    att_entry α :=
  (saved_tuple m).map printf_g

/-- The `Depth` record of the persistence format for the state `m`: the attribute `val`, and
the two children with their `blue`, `green`, `red` attributes, each holding the number denoted
by its text. -/
def depth_record {α : Type} [LinearOrderedField α] [FloorRing α] (m : NewModel α) :
    TiXmlNode α :=
  TiXmlNode.element "Depth" [("val", printf_g (saved_val m))]
    [TiXmlNode.element "Backscatter_Attenuation"
      [("blue", printf_g (m.backscatter_att 0)), ("green", printf_g (m.backscatter_att 1)),
        ("red", printf_g (m.backscatter_att 2))] [],
     TiXmlNode.element "Direct_Signal_Attenuation"
      [("blue", printf_g (m.direct_signal_att 0)), ("green", printf_g (m.direct_signal_att 1)),
        ("red", printf_g (m.direct_signal_att 2))] []]

/-- The document after successive calls of `set_data_to_file`, starting from the document
`doc`: `ms` lists the instance state at each call, whose `out_doc` is the document left by the
previous call. -/
def save_all {α : Type} [LinearOrderedField α] [FloorRing α] (doc : List (TiXmlNode α))
    (ms : List (NewModel α)) : List (TiXmlNode α) :=
  ms.foldl (fun doc m => (set_data_to_file { m with out_doc := doc }).out_doc) doc

/-- The table after inserting the records of `ms` in order, each under its `val` as the
document holds it. -/
def insert_all {α : Type} [LinearOrderedField α] [FloorRing α]
    (att_map : α → Option (att_entry α)) (ms : List (NewModel α)) : α → Option (att_entry α) :=
  ms.foldl (fun mp m => Function.update mp (rendered_val m) (some (rendered_tuple m))) att_map

/-! ## Concrete instances used to evaluate the definitions -/

/-- An empty scene at distance `1`. -/
def demo_scene (α : Type) [Field α] : Scene α :=
  { WAVELENGTHS := [], b_sca := [], b_att := [], irradiance := [], camera_response := [],
    K := 1, WAVELENGTHS_SUB := 1, DISTANCE := 1 }

/-- An instance at depth `depth` with band bound `depth_max_range`: `RANGE = 1`, truth colours
`1` and `2` in every channel, all coefficients `1`, no samples, an empty calibration table and
an empty output document; background sampling on, the other flags off. -/
def demo_model (α : Type) [Field α] (depth depth_max_range : α) : NewModel α :=
  { scene := demo_scene α, EST_VEILING_LIGHT := true, PRIOR_DATA := false, SAVE_DATA := false,
    OPTIMIZE := false, file_initialized := false, RANGE := 1,
    COLOR_1_TRUTH := fun _ => 1, COLOR_2_TRUTH := fun _ => 2,
    depth := depth, depth_max_range := depth_max_range, observed_input := (0, 0),
    observed_samples_blue := [], observed_samples_green := [], observed_samples_red := [],
    backscatter_att := fun _ => 1, direct_signal_att := fun _ => 1,
    att_map := fun _ => none, out_doc := [] }

/-- A scene with three wavelengths, used to evaluate the spectral integral. -/
def demo_scene3 (α : Type) [Field α] : Scene α :=
  { WAVELENGTHS := [400, 500, 600], b_sca := [1, 2, 3], b_att := [1, 1, 1],
    irradiance := [1, 1, 1], camera_response := [fun _ => 1, fun _ => 1, fun _ => 1],
    K := 2, WAVELENGTHS_SUB := 10, DISTANCE := 1 }

/-- An instance at depth `1` whose backscatter coefficients are `0.30000001192092896` (the
single-precision number nearest to `0.3`), the other fields as in `demo_model`. -/
def demo_model_float : NewModel ℚ :=
  { demo_model ℚ 1 0 with backscatter_att := fun _ => 0.30000001192092896 }

/-! ## Theorems -/

/-! ### Closed-form calibration -/

/-- After `calc_attenuation`, the backscatter coefficient of a channel `c < 3` is the closed
form of lines 586-589 at that channel. -/
theorem calc_attenuation_backscatter {α : Type} [Field α] (exp log : α → α) (m : NewModel α)
    (o1 o2 v : Scalar α) (c : ℕ) (hc : c < 3) :
    (calc_attenuation exp log m o1 o2 v).backscatter_att c =
      -1 * log (((m.COLOR_1_TRUTH c * o2 c) - (m.COLOR_2_TRUTH c * o1 c) +
        (m.COLOR_2_TRUTH c - m.COLOR_1_TRUTH c) * v c) /
        ((m.COLOR_2_TRUTH c - m.COLOR_1_TRUTH c) * v c)) / m.scene.DISTANCE := by
  interval_cases c <;>
    simp [calc_attenuation, calc_attenuation_bs, calc_attenuation_ds, List.range_succ,
      Function.update]

/-- After `calc_attenuation`, the direct-signal coefficient of a channel `c < 3` is the closed
form of lines 596-599, computed from the new backscatter coefficient. -/
theorem calc_attenuation_direct_signal {α : Type} [Field α] (exp log : α → α) (m : NewModel α)
    (o1 o2 v : Scalar α) (c : ℕ) (hc : c < 3) :
    (calc_attenuation exp log m o1 o2 v).direct_signal_att c =
      -1 * log ((o2 c - v c * (1 - exp (-1 *
        (calc_attenuation exp log m o1 o2 v).backscatter_att c * m.scene.DISTANCE))) /
        m.COLOR_2_TRUTH c) / m.scene.DISTANCE := by
  interval_cases c <;>
    simp [calc_attenuation, calc_attenuation_bs, calc_attenuation_ds, List.range_succ,
      Function.update]
/-- C1. Closed-form calibration inverts the forward model: when, for a channel `c`, the two
observations are `truth_k * exp (-d_s * DISTANCE) + veiling * (1 - exp (-b * DISTANCE))`, with
`truth1 ≠ truth2`, `truth2 ≠ 0`, `veiling ≠ 0` and `DISTANCE ≠ 0`, `calc_attenuation` sets
`backscatter_att[c]` to `b` and `direct_signal_att[c]` to `d_s` (over the reals). -/
theorem calc_attenuation_inverts_forward_model (m : NewModel ℝ)
    (color_1_obs color_2_obs wideband_veiling_light : Scalar ℝ) (c : ℕ) (hc : c < 3) (b d_s : ℝ)
    (htruth : m.COLOR_1_TRUTH c ≠ m.COLOR_2_TRUTH c) (htruth2 : m.COLOR_2_TRUTH c ≠ 0)
    (hveil : wideband_veiling_light c ≠ 0) (hdist : m.scene.DISTANCE ≠ 0)
    (hobs1 : color_1_obs c = m.COLOR_1_TRUTH c * Real.exp (-d_s * m.scene.DISTANCE) +
      wideband_veiling_light c * (1 - Real.exp (-b * m.scene.DISTANCE)))
    (hobs2 : color_2_obs c = m.COLOR_2_TRUTH c * Real.exp (-d_s * m.scene.DISTANCE) +
      wideband_veiling_light c * (1 - Real.exp (-b * m.scene.DISTANCE))) :
    (calc_attenuation Real.exp Real.log m color_1_obs color_2_obs
        wideband_veiling_light).backscatter_att c = b ∧
    (calc_attenuation Real.exp Real.log m color_1_obs color_2_obs
        wideband_veiling_light).direct_signal_att c = d_s := by
  have hbs : (calc_attenuation Real.exp Real.log m color_1_obs color_2_obs
        wideband_veiling_light).backscatter_att c = b := by
    rw [calc_attenuation_backscatter _ _ _ _ _ _ c hc, hobs1, hobs2]
    have hd : m.COLOR_2_TRUTH c - m.COLOR_1_TRUTH c ≠ 0 := sub_ne_zero.mpr (Ne.symm htruth)
    have hq : (m.COLOR_1_TRUTH c * (m.COLOR_2_TRUTH c * Real.exp (-d_s * m.scene.DISTANCE) +
          wideband_veiling_light c * (1 - Real.exp (-b * m.scene.DISTANCE))) -
        m.COLOR_2_TRUTH c * (m.COLOR_1_TRUTH c * Real.exp (-d_s * m.scene.DISTANCE) +
          wideband_veiling_light c * (1 - Real.exp (-b * m.scene.DISTANCE))) +
        (m.COLOR_2_TRUTH c - m.COLOR_1_TRUTH c) * wideband_veiling_light c) /
        ((m.COLOR_2_TRUTH c - m.COLOR_1_TRUTH c) * wideband_veiling_light c) =
        Real.exp (-b * m.scene.DISTANCE) := by
      field_simp
      ring
    rw [hq, Real.log_exp]
    field_simp
  refine ⟨hbs, ?_⟩
  rw [calc_attenuation_direct_signal _ _ _ _ _ _ c hc, hbs, hobs2]
  have hq : (m.COLOR_2_TRUTH c * Real.exp (-d_s * m.scene.DISTANCE) +
        wideband_veiling_light c * (1 - Real.exp (-b * m.scene.DISTANCE)) -
        wideband_veiling_light c * (1 - Real.exp (-1 * b * m.scene.DISTANCE))) /
        m.COLOR_2_TRUTH c = Real.exp (-d_s * m.scene.DISTANCE) := by
    rw [show -1 * b * m.scene.DISTANCE = -b * m.scene.DISTANCE by ring]
    field_simp
  rw [hq, Real.log_exp]
  field_simp

/-- Witness of C1 at the blue channel of `demo_model`, with `b = 0` and `d_s = 0`: the
observations are the truth colours `1` and `2`, the veiling light is `1`. -/
theorem calc_attenuation_inverts_forward_model_witness :
    (calc_attenuation Real.exp Real.log (demo_model ℝ 0 0) (fun _ => 1) (fun _ => 2)
        (fun _ => 1)).backscatter_att 0 = 0 ∧
    (calc_attenuation Real.exp Real.log (demo_model ℝ 0 0) (fun _ => 1) (fun _ => 2)
        (fun _ => 1)).direct_signal_att 0 = 0 :=
  calc_attenuation_inverts_forward_model (demo_model ℝ 0 0) (fun _ => 1) (fun _ => 2)
    (fun _ => 1) 0 (by norm_num) 0 0 (by norm_num [demo_model]) (by norm_num [demo_model])
    (by norm_num) (by norm_num [demo_model, demo_scene]) (by norm_num [demo_model])
    (by norm_num [demo_model])

/-! ### Depth quantization -/

/-- On a non-negative argument `roundf` is the floor of the argument plus one half. -/
theorem roundf_of_nonneg {α : Type} [LinearOrderedField α] [FloorRing α] (x : α) (hx : 0 ≤ x) :
    roundf x = ((⌊x + 1 / 2⌋ : ℤ) : α) := by
  simp [roundf, hx]

/-- The key as a floor: `round_depth depth = ⌊2 * |depth + 1/2| + 1/2⌋ / 2`. -/
theorem round_depth_eq_floor {α : Type} [LinearOrderedField α] [FloorRing α] (depth : α) :
    round_depth depth = ((⌊2 * |depth + 1 / 2| + 1 / 2⌋ : ℤ) : α) / 2 := by
  have h : |(depth + 0.5) * 2| * 1 = 2 * |depth + 1 / 2| := by
    rw [abs_mul, mul_one, abs_of_pos (by norm_num : (0 : α) < 2), mul_comm]
    norm_num
  have h0 : (0 : α) ≤ 2 * |depth + 1 / 2| := by positivity
  simp only [round_depth, h, roundf_of_nonneg _ h0]

/-- The key of a depth `depth ≥ -1/2` is `k / 2` as soon as `k ≤ 2 * depth + 3/2 < k + 1`. -/
theorem round_depth_eq_of_bounds {α : Type} [LinearOrderedField α] [FloorRing α] (depth : α)
    (k : ℤ) (h0 : 0 ≤ depth + 1 / 2) (h1 : (k : α) ≤ 2 * depth + 3 / 2)
    (h2 : 2 * depth + 3 / 2 < (k : α) + 1) : round_depth depth = (k : α) / 2 := by
  rw [round_depth_eq_floor, abs_of_nonneg h0]
  have : ⌊2 * (depth + 1 / 2) + 1 / 2⌋ = k := by
    rw [Int.floor_eq_iff]
    constructor <;> linarith
  rw [this]

/-- The key of depth `0` is `1/2`. -/
theorem round_depth_zero : round_depth (0 : ℚ) = 1 / 2 := by
  have h := round_depth_eq_of_bounds (0 : ℚ) 1 (by norm_num) (by norm_num) (by norm_num)
  simpa using h

/-- C3, as stated, fails at depth `0`: the key is `0.5`, at distance `0.5 > 0.25` of the
depth. -/
theorem round_depth_not_nearest_half :
    ¬ ((∃ k : ℤ, round_depth (0 : ℚ) = (k : ℚ) * 0.5) ∧ |round_depth (0 : ℚ) - 0| ≤ 0.25) := by
  rw [round_depth_zero]
  norm_num [abs_of_pos]

/-- C3, amended. For every depth the key `round_depth` computed by `est_attenuation` is a
multiple of `0.5` and is within `0.25` of `|depth + 0.5|`: it is `|depth + 0.5|`, not the depth,
rounded to the nearest `0.5`. -/
theorem round_depth_multiple_and_near_shifted_depth {α : Type} [LinearOrderedField α]
    [FloorRing α] (depth : α) :
    (∃ k : ℤ, round_depth depth = (k : α) * 0.5) ∧
      |round_depth depth - (|depth + 0.5|)| ≤ 0.25 := by
  rw [round_depth_eq_floor]
  have hlo := Int.floor_le (2 * |depth + 1 / 2| + 1 / 2)
  have hhi := Int.lt_floor_add_one (2 * |depth + 1 / 2| + 1 / 2)
  have e : |depth + (0.5 : α)| = |depth + 1 / 2| := by norm_num
  refine ⟨⟨⌊2 * |depth + 1 / 2| + 1 / 2⌋, by norm_num; ring⟩, ?_⟩
  rw [e, abs_le]
  constructor <;> norm_num <;> linarith

/-- The keys of the depths `3.2`, `3.4`, `3.26` and `2.74`. -/
theorem round_depth_examples :
    round_depth (3.2 : ℚ) = 3.5 ∧ round_depth (3.4 : ℚ) = 4 ∧
      round_depth (3.26 : ℚ) = 4 ∧ round_depth (2.74 : ℚ) = 3 := by
  have h1 := round_depth_eq_of_bounds (3.2 : ℚ) 7 (by norm_num) (by norm_num) (by norm_num)
  have h2 := round_depth_eq_of_bounds (3.4 : ℚ) 8 (by norm_num) (by norm_num) (by norm_num)
  have h3 := round_depth_eq_of_bounds (3.26 : ℚ) 8 (by norm_num) (by norm_num) (by norm_num)
  have h4 := round_depth_eq_of_bounds (2.74 : ℚ) 6 (by norm_num) (by norm_num) (by norm_num)
  refine ⟨?_, ?_, ?_, ?_⟩
  · rw [h1]; norm_num
  · rw [h2]; norm_num
  · rw [h3]; norm_num
  · rw [h4]; norm_num

/-- C4, as stated, fails: the keys of the depths `3.2` and `3.4` are not equal. -/
theorem round_depth_quantization_test_fails :
    ¬ (round_depth (3.2 : ℚ) = round_depth (3.4 : ℚ) ∧
      round_depth (3.26 : ℚ) ≠ round_depth (2.74 : ℚ)) := by
  have h1 := round_depth_eq_of_bounds (3.2 : ℚ) 7 (by norm_num) (by norm_num) (by norm_num)
  have h2 := round_depth_eq_of_bounds (3.4 : ℚ) 8 (by norm_num) (by norm_num) (by norm_num)
  rw [h1, h2]
  norm_num

/-- C4, amended. The key computed by `est_attenuation` for depth `3.2` is `3.5` and the key for
depth `3.4` is `4`, so the two differ; the key for depth `3.26` is `4` and differs from the key
for depth `2.74`, which is `3`. -/
theorem round_depth_quantization_test :
    round_depth (3.2 : ℚ) = 3.5 ∧ round_depth (3.4 : ℚ) = 4 ∧
      round_depth (3.2 : ℚ) ≠ round_depth (3.4 : ℚ) ∧
      round_depth (3.26 : ℚ) = 4 ∧ round_depth (2.74 : ℚ) = 3 ∧
      round_depth (3.26 : ℚ) ≠ round_depth (2.74 : ℚ) := by
  obtain ⟨h1, h2, h3, h4⟩ := round_depth_examples
  refine ⟨h1, h2, ?_, h3, h4, ?_⟩
  · rw [h1, h2]; norm_num
  · rw [h3, h4]; norm_num

/-! ### Calibration store lookup -/

/-- On a miss, `est_attenuation` with a value-initialised entry of at least six elements
returns the state in which that entry is stored under the key and the six coefficients are its
first six elements. -/
theorem est_attenuation_miss_of_six {α : Type} [LinearOrderedField α] [FloorRing α]
    (a0 a1 a2 a3 a4 a5 : α) (rest : List α) (m : NewModel α)
    (hmiss : m.att_map (round_depth m.depth) = none) :
    est_attenuation (a0 :: a1 :: a2 :: a3 :: a4 :: a5 :: rest) m =
      some { m with
        att_map := Function.update m.att_map (round_depth m.depth)
          (some (a0 :: a1 :: a2 :: a3 :: a4 :: a5 :: rest))
        backscatter_att :=
          Function.update (Function.update (Function.update m.backscatter_att 0 a0) 1 a1) 2 a2
        direct_signal_att :=
          Function.update (Function.update (Function.update m.direct_signal_att 0 a3) 1 a4)
            2 a5 } := by
  simp [est_attenuation, att_map_index, hmiss]

/-- On a miss, `est_attenuation` with a value-initialised entry of fewer than six elements
reads that entry out of bounds. -/
theorem est_attenuation_miss_of_short {α : Type} [LinearOrderedField α] [FloorRing α]
    (dflt : att_entry α) (m : NewModel α)
    (hmiss : m.att_map (round_depth m.depth) = none) (hlen : dflt.length < 6) :
    est_attenuation dflt m = none := by
  match dflt, hlen with
  | [], _ => simp [est_attenuation, att_map_index, hmiss]
  | [_], _ => simp [est_attenuation, att_map_index, hmiss]
  | [_, _], _ => simp [est_attenuation, att_map_index, hmiss]
  | [_, _, _], _ => simp [est_attenuation, att_map_index, hmiss]
  | [_, _, _, _], _ => simp [est_attenuation, att_map_index, hmiss]
  | [_, _, _, _, _], _ => simp [est_attenuation, att_map_index, hmiss]
  | _ :: _ :: _ :: _ :: _ :: _ :: _, h =>
    exfalso
    simp only [List.length_cons] at h
    omega

/-- On a hit with a stored entry of at least six elements, `est_attenuation` returns the state
whose six coefficients are the first six elements of that entry; the table is unchanged. -/
theorem est_attenuation_hit {α : Type} [LinearOrderedField α] [FloorRing α]
    (dflt : att_entry α) (a0 a1 a2 a3 a4 a5 : α) (rest : List α) (m : NewModel α)
    (hhit : m.att_map (round_depth m.depth) = some (a0 :: a1 :: a2 :: a3 :: a4 :: a5 :: rest)) :
    est_attenuation dflt m =
      some { m with
        backscatter_att :=
          Function.update (Function.update (Function.update m.backscatter_att 0 a0) 1 a1) 2 a2
        direct_signal_att :=
          Function.update (Function.update (Function.update m.direct_signal_att 0 a3) 1 a4)
            2 a5 } := by
  simp [est_attenuation, att_map_index, hhit]

/-- C2, as stated, fails on the empty table at depth `0`, where the key `0.5` has no entry and
the coefficients are `1` before the call.  When the value-initialised entry is a 6-tuple of
zeros, `est_attenuation` returns normally, with that entry stored under the key and the
coefficients overwritten by its zeros.  When the value-initialised entry is the empty sequence,
the entry is stored under the key all the same and the first read `[0]` is out of bounds.  In
neither case is a missing key reported. -/
theorem est_attenuation_miss_defaults :
    (demo_model ℚ 0 0).att_map (round_depth (demo_model ℚ 0 0).depth) = none ∧
    (demo_model ℚ 0 0).backscatter_att 0 = 1 ∧
    (est_attenuation [0, 0, 0, 0, 0, 0] (demo_model ℚ 0 0)).map
      (fun m1 => (m1.backscatter_att 0, m1.direct_signal_att 0, m1.att_map (1 / 2))) =
        some (0, 0, some [0, 0, 0, 0, 0, 0]) ∧
    (att_map_index [] (demo_model ℚ 0 0) (1 / 2)).2.att_map (1 / 2) = some [] ∧
    est_attenuation [] (demo_model ℚ 0 0) = none := by
  have hmiss : (demo_model ℚ 0 0).att_map (round_depth (demo_model ℚ 0 0).depth) = none := rfl
  refine ⟨hmiss, rfl, ?_, ?_, ?_⟩
  · rw [est_attenuation_miss_of_six 0 0 0 0 0 0 [] (demo_model ℚ 0 0) hmiss]
    simp [Function.update, demo_model, round_depth_zero]
  · simp [att_map_index, demo_model]
  · exact est_attenuation_miss_of_short [] (demo_model ℚ 0 0) hmiss (by simp)

/-- C2, amended. On a miss `est_attenuation` reports no missing-key failure: the expression
`att_map[round_depth]` stores the value-initialised entry `dflt` under the quantized key and
leaves the other keys untouched.  When that entry has at least six elements, `est_attenuation`
returns with `backscatter_att` and `direct_signal_att` assigned from it; when it has fewer (an
empty sequence), a read of lines 611-617 is out of bounds. -/
theorem est_attenuation_miss_inserts_default {α : Type} [LinearOrderedField α] [FloorRing α]
    (dflt : att_entry α) (m : NewModel α)
    (hmiss : m.att_map (round_depth m.depth) = none) :
    (att_map_index dflt m (round_depth m.depth)).2.att_map (round_depth m.depth) = some dflt ∧
    (∀ k, k ≠ round_depth m.depth →
      (att_map_index dflt m (round_depth m.depth)).2.att_map k = m.att_map k) ∧
    (6 ≤ dflt.length → ∃ m1, est_attenuation dflt m = some m1 ∧
      m1.att_map (round_depth m.depth) = some dflt ∧
      (∀ k, k ≠ round_depth m.depth → m1.att_map k = m.att_map k) ∧
      (∀ i, i < 3 → dflt[i]? = some (m1.backscatter_att i) ∧
        dflt[i + 3]? = some (m1.direct_signal_att i))) ∧
    (dflt.length < 6 → est_attenuation dflt m = none) := by
  refine ⟨by simp [att_map_index, hmiss], ?_, ?_, est_attenuation_miss_of_short dflt m hmiss⟩
  · intro k hk
    simp [att_map_index, hmiss, Function.update, hk]
  · intro hlen
    match dflt, hlen with
    | a0 :: a1 :: a2 :: a3 :: a4 :: a5 :: rest, _ =>
      refine ⟨_, est_attenuation_miss_of_six a0 a1 a2 a3 a4 a5 rest m hmiss, ?_, ?_, ?_⟩
      · simp
      · intro k hk
        simp [Function.update, hk]
      · intro i hi
        interval_cases i <;> simp [Function.update]
    | [], h => simp at h
    | [_], h => simp at h
    | [_, _], h => simp at h
    | [_, _, _], h => simp at h
    | [_, _, _, _], h => simp at h
    | [_, _, _, _, _], h => simp at h

/-- Witness of C2 (amended) on the empty table at depth `0`: with six zeros as the
value-initialised entry `est_attenuation` returns, with the empty sequence it reads out of
bounds. -/
theorem est_attenuation_miss_inserts_default_witness :
    (∃ m1, est_attenuation [0, 0, 0, 0, 0, 0] (demo_model ℚ 0 0) = some m1 ∧
      m1.att_map (round_depth (demo_model ℚ 0 0).depth) = some [0, 0, 0, 0, 0, 0] ∧
      (∀ k, k ≠ round_depth (demo_model ℚ 0 0).depth →
        m1.att_map k = (demo_model ℚ 0 0).att_map k) ∧
      (∀ i, i < 3 → ([0, 0, 0, 0, 0, 0] : List ℚ)[i]? = some (m1.backscatter_att i) ∧
        ([0, 0, 0, 0, 0, 0] : List ℚ)[i + 3]? = some (m1.direct_signal_att i))) ∧
    est_attenuation [] (demo_model ℚ 0 0) = none :=
  ⟨(est_attenuation_miss_inserts_default [0, 0, 0, 0, 0, 0] (demo_model ℚ 0 0) rfl).2.2.1
      (by simp),
   (est_attenuation_miss_inserts_default [] (demo_model ℚ 0 0) rfl).2.2.2 (by simp)⟩

/-! ### Depth-band accumulation and reset -/

/-- The block `save_data` leaves the band bound, `RANGE` and the depth as they are. -/
theorem save_data_depth_max_range {α : Type} [LinearOrderedField α] [FloorRing α]
    (m : NewModel α) :
    (save_data m).depth_max_range = m.depth_max_range ∧ (save_data m).RANGE = m.RANGE ∧
      (save_data m).depth = m.depth := by
  unfold save_data
  split
  · split <;> simp [set_data_to_file, initialize_file]
  · simp

/-- The block `save_data` leaves the coefficients and the scene as they are. -/
theorem save_data_coefficients {α : Type} [LinearOrderedField α] [FloorRing α]
    (m : NewModel α) :
    (save_data m).backscatter_att = m.backscatter_att ∧
      (save_data m).direct_signal_att = m.direct_signal_att ∧
      (save_data m).scene = m.scene ∧ (save_data m).COLOR_2_TRUTH = m.COLOR_2_TRUTH := by
  unfold save_data
  split
  · split <;> simp [set_data_to_file, initialize_file]
  · simp

/-- C5, as stated, fails at the lower end of the band: at `depth = 1`, with
`depth_max_range = 2` and `RANGE = 1`, the depth is in `[depth_max_range - RANGE,
depth_max_range)` and no sample is appended. -/
theorem in_band_lower_end_appends_nothing :
    (demo_model ℚ 1 2).depth_max_range - (demo_model ℚ 1 2).RANGE ≤ (demo_model ℚ 1 2).depth ∧
    (demo_model ℚ 1 2).depth < (demo_model ℚ 1 2).depth_max_range ∧
    (demo_model ℚ 1 2).depth_max_range ≠ -1 ∧
    (calculate_optimized_attenuation (fun _ _ x => x) (demo_model ℚ 1 2)
      (fun _ => 5) (fun _ => 3) (fun _ => 4)).observed_samples_blue = [] ∧
    (calculate_optimized_attenuation (fun _ _ x => x) (demo_model ℚ 1 2)
      (fun _ => 5) (fun _ => 3) (fun _ => 4)).observed_samples_green = [] ∧
    (calculate_optimized_attenuation (fun _ _ x => x) (demo_model ℚ 1 2)
      (fun _ => 5) (fun _ => 3) (fun _ => 4)).observed_samples_red = [] := by
  refine ⟨?_, ?_, ?_, ?_, ?_, ?_⟩ <;>
    norm_num [calculate_optimized_attenuation, demo_model]

/-- C5, amended. For every call of `calculate_optimized_attenuation` whose depth satisfies
`depth_max_range - RANGE < depth < depth_max_range` (both bounds strict, `depth_max_range`
already initialised), exactly two samples are appended to each of the blue, green and red
sequences: for channel `c` first `([color_1_obs[c], veiling[c]], COLOR_1_TRUTH[c])`, then
`([color_2_obs[c], veiling[c]], COLOR_2_TRUTH[c])`. -/
theorem in_band_appends_two_samples {α : Type} [LinearOrderedField α] [FloorRing α]
    (solve : (input_vector α × α → parameter_vector α → α) →
      List (input_vector α × α) → parameter_vector α → parameter_vector α)
    (m : NewModel α) (background_mean color_1_obs color_2_obs : Scalar α)
    (hinit : m.depth_max_range ≠ -1)
    (hlo : m.depth_max_range - m.RANGE < m.depth) (hhi : m.depth < m.depth_max_range) :
    (calculate_optimized_attenuation solve m background_mean color_1_obs
        color_2_obs).observed_samples_blue =
      m.observed_samples_blue ++
        [((color_1_obs 0, veiling_light m background_mean 0), m.COLOR_1_TRUTH 0),
         ((color_2_obs 0, veiling_light m background_mean 0), m.COLOR_2_TRUTH 0)] ∧
    (calculate_optimized_attenuation solve m background_mean color_1_obs
        color_2_obs).observed_samples_green =
      m.observed_samples_green ++
        [((color_1_obs 1, veiling_light m background_mean 1), m.COLOR_1_TRUTH 1),
         ((color_2_obs 1, veiling_light m background_mean 1), m.COLOR_2_TRUTH 1)] ∧
    (calculate_optimized_attenuation solve m background_mean color_1_obs
        color_2_obs).observed_samples_red =
      m.observed_samples_red ++
        [((color_1_obs 2, veiling_light m background_mean 2), m.COLOR_1_TRUTH 2),
         ((color_2_obs 2, veiling_light m background_mean 2), m.COLOR_2_TRUTH 2)] := by
  have hgt : m.depth > m.depth_max_range - m.RANGE := hlo
  simp [calculate_optimized_attenuation, hinit, hhi, hgt]

/-- Witness of C5 (amended) at depth `3/2`, with `depth_max_range = 2` and `RANGE = 1`. -/
theorem in_band_appends_two_samples_witness :
    (calculate_optimized_attenuation (fun _ _ x => x) (demo_model ℚ (3 / 2) 2)
        (fun _ => 5) (fun _ => 3) (fun _ => 4)).observed_samples_blue =
      [((3, 5), 1), ((4, 5), 2)] ∧
    (calculate_optimized_attenuation (fun _ _ x => x) (demo_model ℚ (3 / 2) 2)
        (fun _ => 5) (fun _ => 3) (fun _ => 4)).observed_samples_green =
      [((3, 5), 1), ((4, 5), 2)] ∧
    (calculate_optimized_attenuation (fun _ _ x => x) (demo_model ℚ (3 / 2) 2)
        (fun _ => 5) (fun _ => 3) (fun _ => 4)).observed_samples_red =
      [((3, 5), 1), ((4, 5), 2)] := by
  have h := in_band_appends_two_samples (fun _ _ x => x) (demo_model ℚ (3 / 2) 2)
    (fun _ => 5) (fun _ => 3) (fun _ => 4) (by norm_num [demo_model])
    (by norm_num [demo_model]) (by norm_num [demo_model])
  simpa [demo_model, veiling_light] using h

/-- C6. Band reset: with `depth_max_range` already initialised, a call of
`calculate_optimized_attenuation` at `depth > depth_max_range` leaves the three sample sequences
empty and `depth_max_range` increased by `RANGE`; a call at `depth ≤ depth_max_range` leaves
`depth_max_range` unchanged and clears no sequence (each sequence still starts with its previous
content). -/
theorem band_reset {α : Type} [LinearOrderedField α] [FloorRing α]
    (solve : (input_vector α × α → parameter_vector α → α) →
      List (input_vector α × α) → parameter_vector α → parameter_vector α)
    (m : NewModel α) (background_mean color_1_obs color_2_obs : Scalar α)
    (hinit : m.depth_max_range ≠ -1) :
    (m.depth > m.depth_max_range →
      (calculate_optimized_attenuation solve m background_mean color_1_obs
        color_2_obs).observed_samples_blue = [] ∧
      (calculate_optimized_attenuation solve m background_mean color_1_obs
        color_2_obs).observed_samples_green = [] ∧
      (calculate_optimized_attenuation solve m background_mean color_1_obs
        color_2_obs).observed_samples_red = [] ∧
      (calculate_optimized_attenuation solve m background_mean color_1_obs
        color_2_obs).depth_max_range = m.depth_max_range + m.RANGE) ∧
    (m.depth ≤ m.depth_max_range →
      (calculate_optimized_attenuation solve m background_mean color_1_obs
        color_2_obs).depth_max_range = m.depth_max_range ∧
      m.observed_samples_blue <+: (calculate_optimized_attenuation solve m background_mean
        color_1_obs color_2_obs).observed_samples_blue ∧
      m.observed_samples_green <+: (calculate_optimized_attenuation solve m background_mean
        color_1_obs color_2_obs).observed_samples_green ∧
      m.observed_samples_red <+: (calculate_optimized_attenuation solve m background_mean
        color_1_obs color_2_obs).observed_samples_red) := by
  constructor
  · intro hgt
    have hnlt : ¬ m.depth < m.depth_max_range := not_lt.mpr (le_of_lt hgt)
    have hgt2 : m.depth_max_range < m.depth := hgt
    simp [calculate_optimized_attenuation, hinit, hnlt, hgt2, save_data_depth_max_range]
  · intro hle
    have hngt : ¬ m.depth_max_range < m.depth := not_lt.mpr hle
    by_cases hband : m.depth < m.depth_max_range ∧ m.depth > m.depth_max_range - m.RANGE
    · have h1 := hband.1
      have h2 : m.depth_max_range - m.RANGE < m.depth := hband.2
      simp [calculate_optimized_attenuation, hinit, h1, h2]
    · have hband2 : ¬ (m.depth < m.depth_max_range ∧ m.depth_max_range - m.RANGE < m.depth) :=
        hband
      simp [calculate_optimized_attenuation, hinit, hband2, hngt]

/-- Witness of C6: at depth `3`, above `depth_max_range = 2`, the sequences are empty and the
bound becomes `3`; at depth `3/2`, below it, the bound stays `2` and nothing is cleared. -/
theorem band_reset_witness :
    ((calculate_optimized_attenuation (fun _ _ x => x) (demo_model ℚ 3 2)
        (fun _ => 5) (fun _ => 3) (fun _ => 4)).observed_samples_blue = [] ∧
      (calculate_optimized_attenuation (fun _ _ x => x) (demo_model ℚ 3 2)
        (fun _ => 5) (fun _ => 3) (fun _ => 4)).observed_samples_green = [] ∧
      (calculate_optimized_attenuation (fun _ _ x => x) (demo_model ℚ 3 2)
        (fun _ => 5) (fun _ => 3) (fun _ => 4)).observed_samples_red = [] ∧
      (calculate_optimized_attenuation (fun _ _ x => x) (demo_model ℚ 3 2)
        (fun _ => 5) (fun _ => 3) (fun _ => 4)).depth_max_range =
          (demo_model ℚ 3 2).depth_max_range + (demo_model ℚ 3 2).RANGE) ∧
    ((calculate_optimized_attenuation (fun _ _ x => x) (demo_model ℚ (3 / 2) 2)
        (fun _ => 5) (fun _ => 3) (fun _ => 4)).depth_max_range =
          (demo_model ℚ (3 / 2) 2).depth_max_range ∧
      (demo_model ℚ (3 / 2) 2).observed_samples_blue <+:
        (calculate_optimized_attenuation (fun _ _ x => x) (demo_model ℚ (3 / 2) 2)
          (fun _ => 5) (fun _ => 3) (fun _ => 4)).observed_samples_blue ∧
      (demo_model ℚ (3 / 2) 2).observed_samples_green <+:
        (calculate_optimized_attenuation (fun _ _ x => x) (demo_model ℚ (3 / 2) 2)
          (fun _ => 5) (fun _ => 3) (fun _ => 4)).observed_samples_green ∧
      (demo_model ℚ (3 / 2) 2).observed_samples_red <+:
        (calculate_optimized_attenuation (fun _ _ x => x) (demo_model ℚ (3 / 2) 2)
          (fun _ => 5) (fun _ => 3) (fun _ => 4)).observed_samples_red) :=
  ⟨(band_reset (fun _ _ x => x) (demo_model ℚ 3 2) (fun _ => 5) (fun _ => 3) (fun _ => 4)
      (by norm_num [demo_model])).1 (by norm_num [demo_model]),
   (band_reset (fun _ _ x => x) (demo_model ℚ (3 / 2) 2) (fun _ => 5) (fun _ => 3) (fun _ => 4)
      (by norm_num [demo_model])).2 (by norm_num [demo_model])⟩

/-! ### Uniform-distance correction -/

/-- C8. Identity of uniform correction: when the veiling light of the channel is `0` and the
direct-signal factor `exp (-direct_signal_att * DISTANCE)` is `1`, the per-channel formula of
`color_correct` returns the observed value, whatever the backscatter coefficient is. -/
theorem uniform_correction_identity (bgr wideband_veiling_light : ℝ)
    (backscatter_att direct_signal_att DISTANCE : ℝ)
    (hveil : wideband_veiling_light = 0)
    (hds : Real.exp (-direct_signal_att * DISTANCE) = 1) :
    corrected_bgr Real.exp bgr wideband_veiling_light backscatter_att direct_signal_att
      DISTANCE = bgr := by
  have e : -1 * direct_signal_att * DISTANCE = -direct_signal_att * DISTANCE := by ring
  simp only [corrected_bgr, direct_signal_val, hveil, e, hds, zero_mul, sub_zero, div_one]

/-- Witness of C8: pixel value `9`, backscatter coefficient `7`, direct-signal coefficient `0`,
distance `5`. -/
theorem uniform_correction_identity_witness :
    corrected_bgr Real.exp 9 0 7 0 5 = 9 :=
  uniform_correction_identity 9 0 7 0 5 rfl (by norm_num)

/-! ### Spectral veiling light -/

/-- The last element of a list of length `n ≥ 1` is its element of index `n - 1`. -/
theorem getLastD_eq_getD {β : Type} (l : List β) (d : β) (n : ℕ) (hn : 1 ≤ n)
    (h : l.length = n) : l.getLastD d = l.getD (n - 1) d := by
  subst h
  cases l with
  | nil => simp at hn
  | cons a t =>
    simp [List.getLastD_eq_getLast?, List.getLast?_eq_getElem?, List.getD_eq_getElem?_getD]

/-- A sum over the indices `1, ..., k` listed by `List.range' 1 k`. -/
theorem sum_map_range'_one {β : Type} [AddCommMonoid β] (f : ℕ → β) (k : ℕ) :
    ((List.range' 1 k).map f).sum = ∑ i in Finset.Icc 1 k, f i := by
  induction k with
  | zero => simp
  | succ k ih =>
    rw [List.range'_concat, List.map_append, List.sum_append, ih,
      Finset.sum_Icc_succ_top (by omega)]
    simp [add_comm]

/-- An accumulation loop `acc += g i` over a list of indices adds the sum of the `g i`. -/
theorem foldl_accumulate {α : Type} [Field α] (g : ℕ → Scalar α) (l : List ℕ)
    (init : Scalar α) (c : ℕ) :
    (l.foldl (fun (acc : Scalar α) i => fun c => acc c + g i c) init) c =
      init c + (l.map (fun i => g i c)).sum := by
  induction l generalizing init with
  | nil => simp
  | cons a t ih => rw [List.foldl_cons, ih]; simp [add_assoc]

/-- C10. Spectral veiling light: for a scene whose tables all have `n ≥ 2` entries,
`calc_wideband_veiling_light` returns for each channel `c` the value
`(WAVELENGTHS_SUB / K) * (f 0 + 2 * (f 1 + ... + f (n - 2)) + f (n - 1))` with
`f i = b_sca[i] * irradiance[i] / b_att[i] * camera_response[i][c]`: the two endpoints have
weight `1`, every interior wavelength weight `2`. -/
theorem calc_wideband_veiling_light_trapezoid {α : Type} [Field α] (scene : Scene α) (n c : ℕ)
    (hn : 2 ≤ n) (hW : scene.WAVELENGTHS.length = n) (hsca : scene.b_sca.length = n)
    (hatt : scene.b_att.length = n) (hirr : scene.irradiance.length = n)
    (hcam : scene.camera_response.length = n) :
    calc_wideband_veiling_light scene c =
      (scene.WAVELENGTHS_SUB / scene.K) *
        (spectral_term scene c 0 + 2 * (∑ i in Finset.Icc 1 (n - 2), spectral_term scene c i) +
          spectral_term scene c (n - 1)) := by
  have h1 : 1 ≤ n := by omega
  have hfold := foldl_accumulate
    (fun i c => 2 * scene.camera_response.getD i 0 c *
      (scene.b_sca.getD i 0 * scene.irradiance.getD i 0 / scene.b_att.getD i 0))
    (List.range' 1 (n - 1 - 1))
    (fun c => scene.camera_response.getD 0 0 c *
      (scene.b_sca.getD 0 0 * scene.irradiance.getD 0 0 / scene.b_att.getD 0 0)) c
  have hsum := sum_map_range'_one
    (fun i => 2 * scene.camera_response.getD i 0 c *
      (scene.b_sca.getD i 0 * scene.irradiance.getD i 0 / scene.b_att.getD i 0)) (n - 1 - 1)
  simp only [calc_wideband_veiling_light, hW, getLastD_eq_getD _ _ n h1 hsca,
    getLastD_eq_getD _ _ n h1 hatt, getLastD_eq_getD _ _ n h1 hirr,
    getLastD_eq_getD _ _ n h1 hcam]
  rw [hfold, hsum, show n - 1 - 1 = n - 2 by omega, Finset.mul_sum]
  simp only [spectral_term]
  have hterm : ∀ i ∈ Finset.Icc 1 (n - 2),
      2 * scene.camera_response.getD i 0 c *
        (scene.b_sca.getD i 0 * scene.irradiance.getD i 0 / scene.b_att.getD i 0) =
      2 * (scene.b_sca.getD i 0 * scene.irradiance.getD i 0 / scene.b_att.getD i 0 *
        scene.camera_response.getD i 0 c) := by
    intro i _
    ring
  rw [Finset.sum_congr rfl hterm]
  ring

/-- Witness of C10 on a scene with three wavelengths: terms `1, 2, 3`, `K = 2` and sub-band
width `10` give `(10 / 2) * (1 + 2 * 2 + 3) = 40` in the blue channel. -/
theorem calc_wideband_veiling_light_trapezoid_witness :
    calc_wideband_veiling_light (demo_scene3 ℚ) 0 =
      ((demo_scene3 ℚ).WAVELENGTHS_SUB / (demo_scene3 ℚ).K) *
        (spectral_term (demo_scene3 ℚ) 0 0 +
          2 * (∑ i in Finset.Icc 1 (3 - 2), spectral_term (demo_scene3 ℚ) 0 i) +
          spectral_term (demo_scene3 ℚ) 0 (3 - 1)) ∧
    calc_wideband_veiling_light (demo_scene3 ℚ) 0 = 40 :=
  ⟨calc_wideband_veiling_light_trapezoid (demo_scene3 ℚ) 3 0 (by norm_num) rfl rfl rfl rfl rfl,
    by norm_num [calc_wideband_veiling_light, demo_scene3, List.range']⟩

/-! ### Persistence round trip -/

/-- A number strictly within one half of the integer `d` is rounded to `d`. -/
theorem round_half_even_eq {α : Type} [LinearOrderedField α] [FloorRing α] (x : α) (d : ℤ)
    (h1 : (d : α) - 1 / 2 < x) (h2 : x < (d : α) + 1 / 2) : round_half_even x = d := by
  by_cases hx : (d : α) ≤ x
  · have hf : ⌊x⌋ = d := by
      rw [Int.floor_eq_iff]
      constructor
      · exact hx
      · linarith
    unfold round_half_even
    rw [hf, if_pos (by linarith)]
  · have hx2 : x < d := not_le.mp hx
    have hf : ⌊x⌋ = d - 1 := by
      rw [Int.floor_eq_iff]
      push_cast
      constructor <;> linarith
    have h3 : ¬ (x - ((d - 1 : ℤ) : α) < 1 / 2) := by
      push_cast; linarith
    have h4 : 1 / 2 < x - ((d - 1 : ℤ) : α) := by
      push_cast; linarith
    unfold round_half_even
    rw [hf, if_neg h3, if_pos h4]
    ring

/-- The `"%g"` value of a positive number with decimal exponent `e` whose six leading digits
round to `d`. -/
theorem printf_g_of_pos {α : Type} [LinearOrderedField α] [FloorRing α] (x : α) (e d : ℤ)
    (hx : 0 < x) (he1 : (10 : α) ^ e ≤ x) (he2 : x < (10 : α) ^ (e + 1))
    (hd1 : (d : α) - 1 / 2 < x * (10 : α) ^ (5 - e))
    (hd2 : x * (10 : α) ^ (5 - e) < (d : α) + 1 / 2) :
    printf_g x = (d : α) * (10 : α) ^ (e - 5) := by
  have hlog : Int.log 10 x = e := by
    apply le_antisymm
    · have := (Int.lt_zpow_iff_log_lt (R := α) (b := 10) (by norm_num) (x := e + 1) hx).mp
        (by simpa using he2)
      omega
    · exact (Int.zpow_le_iff_le_log (R := α) (b := 10) (by norm_num) hx).mp (by simpa using he1)
  have hne : x ≠ 0 := ne_of_gt hx
  simp only [printf_g, hne, if_false, hlog, abs_of_pos hx, hx, if_true,
    round_half_even_eq _ d hd1 hd2]

/-- The numbers `1` and `2` are written exactly. -/
theorem printf_g_one_two : printf_g (1 : ℚ) = 1 ∧ printf_g (2 : ℚ) = 2 := by
  constructor
  · rw [printf_g_of_pos (1 : ℚ) 0 100000 (by norm_num) (by norm_num) (by norm_num)
      (by norm_num) (by norm_num)]
    norm_num
  · rw [printf_g_of_pos (2 : ℚ) 0 200000 (by norm_num) (by norm_num) (by norm_num)
      (by norm_num) (by norm_num)]
    norm_num

/-- The number `0.30000001192092896` is written as `0.3`. -/
theorem printf_g_float_third : printf_g (0.30000001192092896 : ℚ) = 0.3 := by
  rw [printf_g_of_pos (0.30000001192092896 : ℚ) (-1) 300000 (by norm_num) (by norm_num)
    (by norm_num) (by norm_num) (by norm_num)]
  norm_num

/-- One call of `set_data_to_file` links the `Depth` record of the current state at the end of
the document. -/
theorem set_data_to_file_out_doc {α : Type} [LinearOrderedField α] [FloorRing α]
    (m : NewModel α) :
    (set_data_to_file m).out_doc = m.out_doc ++ [depth_record m] := by
  cases h : m.OPTIMIZE <;>
    simp [set_data_to_file, SetDoubleAttribute, saved_val, depth_record, h]

/-- Successive calls of `set_data_to_file` append the records of the successive states. -/
theorem save_all_eq {α : Type} [LinearOrderedField α] [FloorRing α]
    (doc : List (TiXmlNode α)) (ms : List (NewModel α)) :
    save_all doc ms = doc ++ ms.map depth_record := by
  induction ms generalizing doc with
  | nil => simp [save_all]
  | cons m t ih =>
    have h := ih (doc ++ [depth_record m])
    simp only [save_all, List.foldl_cons] at h ⊢
    rw [set_data_to_file_out_doc]
    simpa [depth_record, saved_val] using h

/-- The loop of `load_data` on a list of saved records: every record is inserted under its
`val`, in order, with the numbers that the document holds, and no null pointer is
dereferenced. -/
theorem load_data_loop_records {α : Type} [LinearOrderedField α] [FloorRing α]
    (ms : List (NewModel α)) (l : load_locals α) (att_map : α → Option (att_entry α)) :
    load_data_loop l att_map (ms.map depth_record) = some (insert_all att_map ms) := by
  induction ms generalizing l att_map with
  | nil => simp [load_data_loop, insert_all]
  | cons m t ih =>
    have h := ih
      { m_depth := rendered_val m, bs_blue := printf_g (m.backscatter_att 0),
        bs_green := printf_g (m.backscatter_att 1), bs_red := printf_g (m.backscatter_att 2),
        ds_blue := printf_g (m.direct_signal_att 0),
        ds_green := printf_g (m.direct_signal_att 1),
        ds_red := printf_g (m.direct_signal_att 2) }
      (Function.update att_map (rendered_val m) (some (rendered_tuple m)))
    simpa [depth_record, load_data_loop, FirstChildElement, QueryDoubleAttribute, insert_all,
      saved_tuple, rendered_tuple, rendered_val] using h

/-- The loop of `load_data` starts at the first record when only declaration nodes precede. -/
theorem from_first_child_element_records {α : Type} [LinearOrderedField α] [FloorRing α]
    (doc : List (TiXmlNode α))
    (hdoc : ∀ x ∈ doc, x = TiXmlNode.declaration) (ms : List (NewModel α)) :
    from_first_child_element "Depth" (doc ++ ms.map depth_record) = ms.map depth_record := by
  induction doc with
  | nil =>
    cases ms with
    | nil => simp [from_first_child_element]
    | cons m t => simp [from_first_child_element, depth_record]
  | cons x d ih =>
    have hx : x = TiXmlNode.declaration := hdoc x (List.mem_cons_self _ _)
    subst hx
    simpa [from_first_child_element] using ih (fun y hy => hdoc y (List.mem_cons_of_mem _ hy))

/-- Loading a document saved by `save_all` after declaration nodes only inserts its records
in order. -/
theorem load_data_save_all {α : Type} [LinearOrderedField α] [FloorRing α]
    (ms : List (NewModel α)) (doc : List (TiXmlNode α)) (uninit : load_locals α)
    (m0 : NewModel α) (hdoc : ∀ x ∈ doc, x = TiXmlNode.declaration) :
    load_data uninit m0 (save_all doc ms) =
      some { m0 with att_map := insert_all m0.att_map ms } := by
  simp [load_data, save_all_eq, from_first_child_element_records doc hdoc,
    load_data_loop_records]

/-- Inserting records leaves the keys that are not among their written `val` values as they
were. -/
theorem insert_all_of_not_mem {α : Type} [LinearOrderedField α] [FloorRing α]
    (ms : List (NewModel α))
    (att_map : α → Option (att_entry α)) (k : α) (hk : k ∉ ms.map rendered_val) :
    insert_all att_map ms k = att_map k := by
  induction ms generalizing att_map with
  | nil => simp [insert_all]
  | cons m t ih =>
    simp only [List.map_cons, List.mem_cons, not_or] at hk
    have h := ih (Function.update att_map (rendered_val m) (some (rendered_tuple m))) hk.2
    simp only [insert_all, List.foldl_cons] at h ⊢
    rw [h, Function.update_noteq hk.1]

/-- After inserting records with pairwise distinct written `val` values, the entry under the
written `val` of a record is the written 6-tuple of that record. -/
theorem insert_all_of_mem {α : Type} [LinearOrderedField α] [FloorRing α]
    (ms : List (NewModel α))
    (att_map : α → Option (att_entry α)) (hnodup : (ms.map rendered_val).Nodup)
    (m : NewModel α) (hm : m ∈ ms) :
    insert_all att_map ms (rendered_val m) = some (rendered_tuple m) := by
  induction ms generalizing att_map with
  | nil => simp at hm
  | cons a t ih =>
    simp only [List.map_cons, List.nodup_cons] at hnodup
    rcases List.mem_cons.mp hm with rfl | hmt
    · have h := insert_all_of_not_mem t
        (Function.update att_map (rendered_val m) (some (rendered_tuple m))) (rendered_val m)
        hnodup.1
      simp only [insert_all, List.foldl_cons] at h ⊢
      rw [h, Function.update_same]
    · have h := ih (Function.update att_map (rendered_val a) (some (rendered_tuple a)))
        hnodup.2 hmt
      simpa only [insert_all, List.foldl_cons] using h

/-- C7, as stated, fails: one record (so the `val` values are pairwise distinct) saved at
depth `1` with the backscatter coefficients `0.30000001192092896` is loaded, under the key `1`,
as the entry `[0.3, 0.3, 0.3, 1, 1, 1]`, which is not the saved 6-tuple. -/
theorem persistence_round_trip_not_exact :
    ([demo_model_float].map saved_val).Nodup ∧
    saved_val demo_model_float = 1 ∧
    saved_tuple demo_model_float =
      [0.30000001192092896, 0.30000001192092896, 0.30000001192092896, 1, 1, 1] ∧
    (load_data ⟨0, 0, 0, 0, 0, 0, 0⟩ (demo_model ℚ 0 0)
      (save_all [TiXmlNode.declaration] [demo_model_float])).map (fun m1 => m1.att_map 1) =
        some (some [0.3, 0.3, 0.3, 1, 1, 1]) ∧
    (load_data ⟨0, 0, 0, 0, 0, 0, 0⟩ (demo_model ℚ 0 0)
      (save_all [TiXmlNode.declaration] [demo_model_float])).map (fun m1 => m1.att_map 1) ≠
        some (some (saved_tuple demo_model_float)) := by
  have hload := load_data_save_all [demo_model_float] [TiXmlNode.declaration]
    ⟨0, 0, 0, 0, 0, 0, 0⟩ (demo_model ℚ 0 0) (by simp)
  have hentry : (load_data ⟨0, 0, 0, 0, 0, 0, 0⟩ (demo_model ℚ 0 0)
      (save_all [TiXmlNode.declaration] [demo_model_float])).map (fun m1 => m1.att_map 1) =
        some (some [0.3, 0.3, 0.3, 1, 1, 1]) := by
    rw [hload]
    simp [insert_all, rendered_val, rendered_tuple, saved_val, saved_tuple, demo_model_float,
      demo_model, printf_g_one_two.1, printf_g_float_third]
  refine ⟨by simp, by simp [saved_val, demo_model_float, demo_model],
    by simp [saved_tuple, demo_model_float, demo_model], hentry, ?_⟩
  rw [hentry]
  simp [saved_tuple, demo_model_float, demo_model]
  norm_num

/-- C7, amended. Persistence round trip: when the records appended by successive calls of
`set_data_to_file` (to a document holding at most the declaration) have pairwise distinct `val`
values as written in the document, `load_data` applied to the saved document, on an instance
whose `att_map` is empty, succeeds with an `att_map` whose key set is exactly the set of the
written `val` values and whose entry for each key is the written 6-tuple (backscatter blue,
green, red, direct-signal blue, green, red).  A number is written as its `"%g"` text, that is
rounded to six significant decimal digits: the key and the entry of a record are exactly its
saved `val` and 6-tuple when that rounding leaves these seven numbers unchanged. -/
theorem persistence_round_trip {α : Type} [LinearOrderedField α] [FloorRing α]
    (ms : List (NewModel α))
    (doc : List (TiXmlNode α)) (uninit : load_locals α) (m0 : NewModel α)
    (hnodup : (ms.map rendered_val).Nodup)
    (hdoc : ∀ x ∈ doc, x = TiXmlNode.declaration)
    (hempty : ∀ k, m0.att_map k = none) :
    ∃ m1, load_data uninit m0 (save_all doc ms) = some m1 ∧
      (∀ k, m1.att_map k ≠ none ↔ k ∈ ms.map rendered_val) ∧
      (∀ m ∈ ms, m1.att_map (rendered_val m) = some (rendered_tuple m)) ∧
      (∀ m ∈ ms, printf_g (saved_val m) = saved_val m →
        (∀ x ∈ saved_tuple m, printf_g x = x) →
        m1.att_map (saved_val m) = some (saved_tuple m)) := by
  refine ⟨{ m0 with att_map := insert_all m0.att_map ms },
    load_data_save_all ms doc uninit m0 hdoc, ?_, ?_, ?_⟩
  · intro k
    constructor
    · intro hk
      by_contra hmem
      exact hk (by simp only [insert_all_of_not_mem ms m0.att_map k hmem, hempty])
    · intro hmem
      obtain ⟨m, hm, rfl⟩ := List.mem_map.mp hmem
      simp only [insert_all_of_mem ms m0.att_map hnodup m hm]
      simp
  · intro m hm
    exact insert_all_of_mem ms m0.att_map hnodup m hm
  · intro m hm hval htuple
    have h := insert_all_of_mem ms m0.att_map hnodup m hm
    have htup : rendered_tuple m = saved_tuple m := by
      unfold rendered_tuple
      conv_rhs => rw [← List.map_id (saved_tuple m)]
      exact List.map_congr_left (fun x hx => by simpa using htuple x hx)
    rw [rendered_val, hval, htup] at h
    exact h

/-- Witness of C7 (amended): two records saved at the depths `1` and `2` (all coefficients
`1`, numbers that are written exactly) after the declaration, loaded into an empty table: the
keys are the written `val` values and the entry under the key `1` is the saved 6-tuple. -/
theorem persistence_round_trip_witness :
    ∃ m1, load_data ⟨0, 0, 0, 0, 0, 0, 0⟩ (demo_model ℚ 0 0)
        (save_all [TiXmlNode.declaration] [demo_model ℚ 1 0, demo_model ℚ 2 0]) = some m1 ∧
      (∀ k, m1.att_map k ≠ none ↔
        k ∈ [demo_model ℚ 1 0, demo_model ℚ 2 0].map rendered_val) ∧
      (∀ m ∈ [demo_model ℚ 1 0, demo_model ℚ 2 0],
        m1.att_map (rendered_val m) = some (rendered_tuple m)) ∧
      m1.att_map 1 = some [1, 1, 1, 1, 1, 1] := by
  obtain ⟨m1, h1, h2, h3, h4⟩ := persistence_round_trip
    [demo_model ℚ 1 0, demo_model ℚ 2 0] [TiXmlNode.declaration]
    ⟨0, 0, 0, 0, 0, 0, 0⟩ (demo_model ℚ 0 0)
    (by simp [rendered_val, saved_val, demo_model, printf_g_one_two]) (by simp)
    (fun _ => rfl)
  refine ⟨m1, h1, h2, h3, ?_⟩
  have h := h4 (demo_model ℚ 1 0) (by simp)
    (by simp [saved_val, demo_model, printf_g_one_two])
    (by simp [saved_tuple, demo_model, printf_g_one_two])
  simpa [saved_val, saved_tuple, demo_model] using h

/-! ### Spatially-varying correction -/

/-- With `PRIOR_DATA` off, `color_correct_slam` returns. -/
theorem color_correct_slam_returns {α : Type} [LinearOrderedField α] [FloorRing α]
    (exp log : α → α) (dflt : att_entry α) (m : NewModel α) (bgr : ℕ → List α)
    (img_voronoi : List α) (background_mean color_1_obs color_2_obs : Scalar α)
    (hprior : m.PRIOR_DATA = false) :
    ∃ r, color_correct_slam exp log dflt m bgr img_voronoi background_mean color_1_obs
      color_2_obs = some r := by
  simp [color_correct_slam, hprior]

/-- The corrected planes returned by `color_correct_slam` are the per-channel formula applied
with the coefficients that the calibration step of the call has set, which are those of the
returned state. -/
theorem color_correct_slam_plane {α : Type} [LinearOrderedField α] [FloorRing α]
    (exp log : α → α) (dflt : att_entry α) (m : NewModel α) (bgr : ℕ → List α)
    (img_voronoi : List α) (background_mean color_1_obs color_2_obs : Scalar α)
    (r : (ℕ → List α) × NewModel α)
    (hr : color_correct_slam exp log dflt m bgr img_voronoi background_mean color_1_obs
      color_2_obs = some r)
    (c : ℕ) (hc : c < 3) :
    r.1 c =
      slam_corrected_bgr (bgr c) (veiling_light m background_mean c)
        (slam_backscatter_val exp (r.2.backscatter_att c) img_voronoi)
        (slam_direct_signal_val exp (r.2.direct_signal_att c) img_voronoi) := by
  by_cases hp : m.PRIOR_DATA = true
  · cases he : est_attenuation dflt m with
    | none => simp [color_correct_slam, hp, he] at hr
    | some mc =>
      simp only [color_correct_slam, hp, he, if_true, Option.some.injEq] at hr
      subst hr
      interval_cases c <;> simp [save_data_coefficients]
  · have hp2 : m.PRIOR_DATA = false := by simpa using hp
    simp only [color_correct_slam, hp2, Bool.false_eq_true, if_false, Option.some.injEq] at hr
    subst hr
    interval_cases c <;> simp [save_data_coefficients]

/-- C11. No correction at zero distance: at a pixel `p` whose value in the distance field of
`color_correct_slam` is `0`, for every attenuation coefficient and veiling light, the
backscatter factor is `0`, the direct-signal factor is `1`, and the corrected channel value is
the observed channel value. -/
theorem slam_zero_distance_no_correction (bgr img_voronoi : List ℝ)
    (wideband_veiling_light backscatter_att direct_signal_att : ℝ) (p : ℕ) (x : ℝ)
    (hdist : img_voronoi[p]? = some 0) (hobs : bgr[p]? = some x) :
    (slam_backscatter_val Real.exp backscatter_att img_voronoi)[p]? = some 0 ∧
    (slam_direct_signal_val Real.exp direct_signal_att img_voronoi)[p]? = some 1 ∧
    (slam_corrected_bgr bgr wideband_veiling_light
      (slam_backscatter_val Real.exp backscatter_att img_voronoi)
      (slam_direct_signal_val Real.exp direct_signal_att img_voronoi))[p]? = some x := by
  have hbs : (slam_backscatter_val Real.exp backscatter_att img_voronoi)[p]? = some 0 := by
    simp [slam_backscatter_val, List.getElem?_map, hdist]
  have hds : (slam_direct_signal_val Real.exp direct_signal_att img_voronoi)[p]? = some 1 := by
    simp [slam_direct_signal_val, List.getElem?_map, hdist]
  refine ⟨hbs, hds, ?_⟩
  simp only [slam_corrected_bgr, List.getElem?_zipWith, hobs, hbs, hds]
  simp

/-- Witness of C11: a field of two pixels whose second value is `0`; the observed value `9` of
the second pixel is returned, with veiling light `4` and coefficients `7` and `3`. -/
theorem slam_zero_distance_no_correction_witness :
    (slam_backscatter_val Real.exp 7 [2, 0])[1]? = some 0 ∧
    (slam_direct_signal_val Real.exp 3 [2, 0])[1]? = some 1 ∧
    (slam_corrected_bgr [8, 9] 4 (slam_backscatter_val Real.exp 7 [2, 0])
      (slam_direct_signal_val Real.exp 3 [2, 0]))[1]? = some 9 :=
  slam_zero_distance_no_correction [8, 9] [2, 0] 4 7 3 1 9 rfl rfl

/-! ### Calibrate, then correct -/

/-- The function `calc_attenuation` leaves the scene and the truth colours as they are. -/
theorem calc_attenuation_frame {α : Type} [Field α] (exp log : α → α) (m : NewModel α)
    (o1 o2 v : Scalar α) :
    (calc_attenuation exp log m o1 o2 v).scene = m.scene ∧
      (calc_attenuation exp log m o1 o2 v).COLOR_1_TRUTH = m.COLOR_1_TRUTH ∧
      (calc_attenuation exp log m o1 o2 v).COLOR_2_TRUTH = m.COLOR_2_TRUTH := by
  simp [calc_attenuation, calc_attenuation_bs, calc_attenuation_ds, List.range_succ]

/-- With `PRIOR_DATA` off, `color_correct` returns: the state is the one left by
`calc_attenuation` on the mean observations and the veiling light of the call, after the
`SAVE_DATA` block, and the planes are the per-channel formula with its coefficients. -/
theorem color_correct_state {α : Type} [LinearOrderedField α] [FloorRing α]
    (exp log : α → α) (dflt : att_entry α) (m : NewModel α) (bgr : ℕ → List α)
    (background_mean color_1_obs color_2_obs : Scalar α) (hprior : m.PRIOR_DATA = false) :
    color_correct exp log dflt m bgr background_mean color_1_obs color_2_obs =
      some
        (fun c =>
          if c < 3 then
            (bgr c).map (fun x => corrected_bgr exp x (veiling_light m background_mean c)
              ((calc_attenuation exp log m color_1_obs color_2_obs
                (veiling_light m background_mean)).backscatter_att c)
              ((calc_attenuation exp log m color_1_obs color_2_obs
                (veiling_light m background_mean)).direct_signal_att c)
              (calc_attenuation exp log m color_1_obs color_2_obs
                (veiling_light m background_mean)).scene.DISTANCE)
          else [],
         save_data (calc_attenuation exp log m color_1_obs color_2_obs
          (veiling_light m background_mean))) := by
  simp [color_correct, hprior]

/-- The corrected planes returned by `color_correct` are the per-channel formula applied with
the coefficients held by the returned state. -/
theorem color_correct_plane {α : Type} [LinearOrderedField α] [FloorRing α]
    (exp log : α → α) (dflt : att_entry α) (m : NewModel α) (bgr : ℕ → List α)
    (background_mean color_1_obs color_2_obs : Scalar α)
    (r : (ℕ → List α) × NewModel α)
    (hr : color_correct exp log dflt m bgr background_mean color_1_obs color_2_obs = some r)
    (c : ℕ) (hc : c < 3) :
    r.1 c =
      (bgr c).map (fun x => corrected_bgr exp x (veiling_light m background_mean c)
        (r.2.backscatter_att c) (r.2.direct_signal_att c) r.2.scene.DISTANCE) := by
  by_cases hp : m.PRIOR_DATA = true
  · cases he : est_attenuation dflt m with
    | none => simp [color_correct, hp, he] at hr
    | some mc =>
      simp only [color_correct, hp, he, if_true, Option.some.injEq] at hr
      subst hr
      simp only [hc, if_true, save_data_coefficients]
  · have hp2 : m.PRIOR_DATA = false := by simpa using hp
    simp only [color_correct, hp2, Bool.false_eq_true, if_false, Option.some.injEq] at hr
    subst hr
    simp only [hc, if_true, save_data_coefficients]

/-- The algebra behind calibrate-then-correct: with `cb` the closed-form backscatter factor
and a positive direct-signal factor, both observations are mapped to their truth colours. -/
theorem two_point_algebra (T1 T2 a b v cb : ℝ) (hT : T1 ≠ T2) (hv : v ≠ 0)
    (hcb : cb = (T1 * b - T2 * a + (T2 - T1) * v) / ((T2 - T1) * v))
    (hcd : 0 < (b - v * (1 - cb)) / T2) :
    (a - v * (1 - cb)) / ((b - v * (1 - cb)) / T2) = T1 ∧
      (b - v * (1 - cb)) / ((b - v * (1 - cb)) / T2) = T2 := by
  have hT2 : T2 ≠ 0 := by
    rintro rfl
    simp at hcd
  have hN : b - v * (1 - cb) ≠ 0 := by
    intro h
    rw [h] at hcd
    simp at hcd
  have hd : T2 - T1 ≠ 0 := sub_ne_zero.mpr (Ne.symm hT)
  have key : v * (1 - cb) = (T2 * a - T1 * b) / (T2 - T1) := by
    rw [hcb]
    field_simp
    ring
  have hN2 : b - v * (1 - cb) = T2 * (b - a) / (T2 - T1) := by
    rw [key]; field_simp; ring
  have hA : a - v * (1 - cb) = T1 * (b - a) / (T2 - T1) := by
    rw [key]; field_simp; ring
  have hba : b - a ≠ 0 := by
    intro h
    apply hN
    rw [hN2, h]
    simp
  constructor
  · rw [hA, hN2]
    field_simp
    ring
  · field_simp

/-- C12. Calibrate-then-correct reproduces the reference colours: in `color_correct` with
`PRIOR_DATA` off, for a channel `c` with `truth1 ≠ truth2`, `veiling ≠ 0`, `DISTANCE ≠ 0` and
both logarithm arguments `channel_bs > 0` and `channel_ds > 0`, the call returns and the
uniform correction formula with the coefficients just produced by `calc_attenuation` (those of
the returned state) maps the mean observation `color_1_obs[c]` to `COLOR_1_TRUTH[c]` and
`color_2_obs[c]` to `COLOR_2_TRUTH[c]` (over the reals). -/
theorem calibrate_then_correct (dflt : att_entry ℝ) (m : NewModel ℝ) (bgr : ℕ → List ℝ)
    (background_mean color_1_obs color_2_obs : Scalar ℝ) (c : ℕ) (hc : c < 3)
    (hprior : m.PRIOR_DATA = false)
    (htruth : m.COLOR_1_TRUTH c ≠ m.COLOR_2_TRUTH c)
    (hveil : veiling_light m background_mean c ≠ 0)
    (hdist : m.scene.DISTANCE ≠ 0)
    (hbs : 0 < channel_bs m color_1_obs color_2_obs (veiling_light m background_mean) c)
    (hds : 0 < channel_ds Real.exp
      (calc_attenuation Real.exp Real.log m color_1_obs color_2_obs
        (veiling_light m background_mean))
      color_2_obs (veiling_light m background_mean) c) :
    ∃ r, color_correct Real.exp Real.log dflt m bgr background_mean color_1_obs
        color_2_obs = some r ∧
      corrected_bgr Real.exp (color_1_obs c) (veiling_light m background_mean c)
        (r.2.backscatter_att c) (r.2.direct_signal_att c) r.2.scene.DISTANCE =
          m.COLOR_1_TRUTH c ∧
      corrected_bgr Real.exp (color_2_obs c) (veiling_light m background_mean c)
        (r.2.backscatter_att c) (r.2.direct_signal_att c) r.2.scene.DISTANCE =
          m.COLOR_2_TRUTH c := by
  refine ⟨_, color_correct_state Real.exp Real.log dflt m bgr background_mean color_1_obs
    color_2_obs hprior, ?_⟩
  obtain ⟨hs, _, hT⟩ := calc_attenuation_frame Real.exp Real.log m color_1_obs color_2_obs
    (veiling_light m background_mean)
  have hbs_eq := calc_attenuation_backscatter Real.exp Real.log m color_1_obs color_2_obs
    (veiling_light m background_mean) c hc
  have hds_eq := calc_attenuation_direct_signal Real.exp Real.log m color_1_obs color_2_obs
    (veiling_light m background_mean) c hc
  simp only [channel_ds, hs, hT] at hds
  simp only [channel_bs] at hbs
  simp only [save_data_coefficients, hs]
  have e1 : Real.exp (-1 * (calc_attenuation Real.exp Real.log m color_1_obs color_2_obs
      (veiling_light m background_mean)).backscatter_att c * m.scene.DISTANCE) =
      (m.COLOR_1_TRUTH c * color_2_obs c - m.COLOR_2_TRUTH c * color_1_obs c +
        (m.COLOR_2_TRUTH c - m.COLOR_1_TRUTH c) * veiling_light m background_mean c) /
        ((m.COLOR_2_TRUTH c - m.COLOR_1_TRUTH c) * veiling_light m background_mean c) := by
    rw [hbs_eq, show ∀ L : ℝ, -1 * (-1 * L / m.scene.DISTANCE) * m.scene.DISTANCE = L from
      fun L => by field_simp]
    exact Real.exp_log hbs
  rw [e1] at hds
  have e2 : Real.exp (-1 * (calc_attenuation Real.exp Real.log m color_1_obs color_2_obs
      (veiling_light m background_mean)).direct_signal_att c * m.scene.DISTANCE) =
      (color_2_obs c - veiling_light m background_mean c *
        (1 - (m.COLOR_1_TRUTH c * color_2_obs c - m.COLOR_2_TRUTH c * color_1_obs c +
          (m.COLOR_2_TRUTH c - m.COLOR_1_TRUTH c) * veiling_light m background_mean c) /
          ((m.COLOR_2_TRUTH c - m.COLOR_1_TRUTH c) * veiling_light m background_mean c))) /
        m.COLOR_2_TRUTH c := by
    rw [hds_eq, e1, show ∀ L : ℝ, -1 * (-1 * L / m.scene.DISTANCE) * m.scene.DISTANCE = L from
      fun L => by field_simp]
    exact Real.exp_log hds
  simp only [corrected_bgr, backscatter_val, direct_signal_val, e1, e2]
  exact two_point_algebra (m.COLOR_1_TRUTH c) (m.COLOR_2_TRUTH c) (color_1_obs c)
    (color_2_obs c) (veiling_light m background_mean c) _ htruth hveil rfl hds

/-- Witness of C12 at the blue channel of `demo_model` (truth colours `1` and `2`, distance
`1`), with the observations `1` and `2` and the veiling light `1`: both logarithm arguments
are `1`. -/
theorem calibrate_then_correct_witness :
    ∃ r, color_correct Real.exp Real.log [] (demo_model ℝ 0 0) (fun _ => [1, 2]) (fun _ => 1)
        (fun _ => 1) (fun _ => 2) = some r ∧
      corrected_bgr Real.exp 1 1 (r.2.backscatter_att 0) (r.2.direct_signal_att 0)
        r.2.scene.DISTANCE = 1 ∧
      corrected_bgr Real.exp 2 1 (r.2.backscatter_att 0) (r.2.direct_signal_att 0)
        r.2.scene.DISTANCE = 2 :=
  calibrate_then_correct [] (demo_model ℝ 0 0) (fun _ => [1, 2]) (fun _ => 1) (fun _ => 1)
    (fun _ => 2) 0 (by norm_num) rfl (by norm_num [demo_model])
    (by norm_num [demo_model, veiling_light]) (by norm_num [demo_model, demo_scene])
    (by norm_num [channel_bs, demo_model, veiling_light])
    (by
      simp [channel_ds, calc_attenuation, calc_attenuation_bs,
        calc_attenuation_ds, List.range_succ, demo_model, demo_scene, veiling_light,
        Function.update]
      norm_num)

/-! ### Position of the key relative to the depth, and the fit branch -/

/-- For a depth `depth ≥ -1/2` the key lies in `(depth + 1/4, depth + 3/4]`. -/
theorem round_depth_bounds {α : Type} [LinearOrderedField α] [FloorRing α] (depth : α)
    (hdepth : -1 / 2 ≤ depth) :
    depth + 1 / 4 < round_depth depth ∧ round_depth depth ≤ depth + 3 / 4 := by
  have h0 : 0 ≤ depth + 1 / 2 := by linarith
  rw [round_depth_eq_floor, abs_of_nonneg h0]
  have hlo := Int.floor_le (2 * (depth + 1 / 2) + 1 / 2)
  have hhi := Int.lt_floor_add_one (2 * (depth + 1 / 2) + 1 / 2)
  constructor <;> linarith

/-- When the least-squares branch is not taken, a call of `calculate_optimized_attenuation`
does not run the solver: the coefficients and the output document are left as they are, and
`depth_max_range` is the value set by lines 116-120. -/
theorem calculate_optimized_attenuation_of_no_fit {α : Type} [LinearOrderedField α]
    [FloorRing α]
    (solve : (input_vector α × α → parameter_vector α → α) →
      List (input_vector α × α) → parameter_vector α → parameter_vector α)
    (m : NewModel α) (background_mean color_1_obs color_2_obs : Scalar α)
    (hfit : fit_branch_taken m = false) :
    (calculate_optimized_attenuation solve m background_mean color_1_obs
        color_2_obs).backscatter_att = m.backscatter_att ∧
    (calculate_optimized_attenuation solve m background_mean color_1_obs
        color_2_obs).direct_signal_att = m.direct_signal_att ∧
    (calculate_optimized_attenuation solve m background_mean color_1_obs
        color_2_obs).out_doc = m.out_doc ∧
    (calculate_optimized_attenuation solve m background_mean color_1_obs
        color_2_obs).depth_max_range = (init_depth_max_range m).depth_max_range := by
  simp only [fit_branch_taken, Bool.and_eq_false_imp, Bool.not_eq_true', decide_eq_false_iff_not,
    decide_eq_true_eq, init_depth_max_range] at hfit
  simp only [calculate_optimized_attenuation, init_depth_max_range]
  by_cases hinit : m.depth_max_range = -1
  · simp only [hinit, if_true] at hfit ⊢
    split
    · simp
    · rename_i hband
      rw [if_neg (hfit hband)]
      simp
  · simp only [hinit, if_false] at hfit ⊢
    split
    · simp
    · rename_i hband
      rw [if_neg (hfit hband)]
      simp

/-- When the least-squares branch is taken, a call of `calculate_optimized_attenuation`
overwrites the coefficients of the three channels with the solver's results on the current
sample sequences, empties the sequences and advances `depth_max_range` by `RANGE`. -/
theorem calculate_optimized_attenuation_of_fit {α : Type} [LinearOrderedField α]
    [FloorRing α]
    (solve : (input_vector α × α → parameter_vector α → α) →
      List (input_vector α × α) → parameter_vector α → parameter_vector α)
    (m : NewModel α) (background_mean color_1_obs color_2_obs : Scalar α)
    (hfit : fit_branch_taken m = true) :
    (calculate_optimized_attenuation solve m background_mean color_1_obs
        color_2_obs).backscatter_att =
      Function.update (Function.update (Function.update m.backscatter_att
        0 (solve residual m.observed_samples_blue (1, 1)).1)
        1 (solve residual m.observed_samples_green (1, 1)).1)
        2 (solve residual m.observed_samples_red (1, 1)).1 ∧
    (calculate_optimized_attenuation solve m background_mean color_1_obs
        color_2_obs).direct_signal_att =
      Function.update (Function.update (Function.update m.direct_signal_att
        0 (solve residual m.observed_samples_blue (1, 1)).2)
        1 (solve residual m.observed_samples_green (1, 1)).2)
        2 (solve residual m.observed_samples_red (1, 1)).2 ∧
    (calculate_optimized_attenuation solve m background_mean color_1_obs
        color_2_obs).observed_samples_blue = [] ∧
    (calculate_optimized_attenuation solve m background_mean color_1_obs
        color_2_obs).observed_samples_green = [] ∧
    (calculate_optimized_attenuation solve m background_mean color_1_obs
        color_2_obs).observed_samples_red = [] ∧
    (calculate_optimized_attenuation solve m background_mean color_1_obs
        color_2_obs).depth_max_range = (init_depth_max_range m).depth_max_range + m.RANGE := by
  simp only [fit_branch_taken, Bool.and_eq_true, Bool.not_eq_true', decide_eq_false_iff_not,
    decide_eq_true_eq, init_depth_max_range] at hfit
  simp only [calculate_optimized_attenuation, init_depth_max_range]
  by_cases hinit : m.depth_max_range = -1
  · simp only [hinit, if_true] at hfit ⊢
    rw [if_neg hfit.1, if_pos hfit.2]
    simp [save_data_coefficients, save_data_depth_max_range]
  · simp only [hinit, if_false] at hfit ⊢
    rw [if_neg hfit.1, if_pos hfit.2]
    simp [save_data_coefficients, save_data_depth_max_range]

/-- A call of `calculate_optimized_attenuation` changes neither the depth nor `RANGE`. -/
theorem calculate_optimized_attenuation_frame {α : Type} [LinearOrderedField α] [FloorRing α]
    (solve : (input_vector α × α → parameter_vector α → α) →
      List (input_vector α × α) → parameter_vector α → parameter_vector α)
    (m : NewModel α) (background_mean color_1_obs color_2_obs : Scalar α) :
    (calculate_optimized_attenuation solve m background_mean color_1_obs
        color_2_obs).depth = m.depth ∧
    (calculate_optimized_attenuation solve m background_mean color_1_obs
        color_2_obs).RANGE = m.RANGE := by
  simp only [calculate_optimized_attenuation]
  split_ifs <;> simp [save_data_depth_max_range]

/-- With `depth_max_range` initialised, the least-squares branch is taken exactly when the
depth is above `depth_max_range`. -/
theorem fit_branch_taken_of_initialised {α : Type} [LinearOrderedField α] [FloorRing α]
    (m : NewModel α) (hinit : m.depth_max_range ≠ -1) :
    fit_branch_taken m = true ↔ m.depth > m.depth_max_range := by
  simp only [fit_branch_taken, init_depth_max_range, hinit, if_false, Bool.and_eq_true,
    Bool.not_eq_true', decide_eq_false_iff_not, decide_eq_true_eq]
  constructor
  · exact fun h => h.2
  · exact fun h => ⟨fun hb => absurd hb.1 (not_lt.mpr (le_of_lt h)), h⟩

/-- C13. The lookup key is strictly above the depth: for every depth `≥ -0.5` the key
`round_depth` satisfies `depth + 0.25 < round_depth ≤ depth + 0.75`, hence is never the depth;
the same value is the initial `depth_max_range` computed on the first call of
`calculate_optimized_attenuation` (`depth_max_range = -1`), so that call does not take the fit
branch: the solver is not run and `depth_max_range` is left at that value. -/
theorem key_strictly_above_depth {α : Type} [LinearOrderedField α] [FloorRing α]
    (solve : (input_vector α × α → parameter_vector α → α) →
      List (input_vector α × α) → parameter_vector α → parameter_vector α)
    (m : NewModel α) (background_mean color_1_obs color_2_obs : Scalar α)
    (hdepth : m.depth ≥ -0.5) :
    (m.depth + 0.25 < round_depth m.depth ∧ round_depth m.depth ≤ m.depth + 0.75 ∧
      round_depth m.depth ≠ m.depth) ∧
    (m.depth_max_range = -1 →
      (init_depth_max_range m).depth_max_range = round_depth m.depth ∧
      fit_branch_taken m = false ∧
      (calculate_optimized_attenuation solve m background_mean color_1_obs
        color_2_obs).depth_max_range = round_depth m.depth ∧
      (calculate_optimized_attenuation solve m background_mean color_1_obs
        color_2_obs).backscatter_att = m.backscatter_att ∧
      (calculate_optimized_attenuation solve m background_mean color_1_obs
        color_2_obs).direct_signal_att = m.direct_signal_att) := by
  have hd : -1 / 2 ≤ m.depth := by
    have : (-0.5 : α) = -1 / 2 := by norm_num
    rw [← this]; exact hdepth
  obtain ⟨hlo, hhi⟩ := round_depth_bounds m.depth hd
  have hgt : m.depth < round_depth m.depth := by linarith
  refine ⟨⟨by norm_num; linarith, by norm_num; linarith, ne_of_gt hgt⟩, ?_⟩
  intro hfirst
  have hinit : (init_depth_max_range m).depth_max_range = round_depth m.depth := by
    simp [init_depth_max_range, hfirst, round_depth]
  have hnofit : fit_branch_taken m = false := by
    have hdepth_eq : (init_depth_max_range m).depth = m.depth := by
      simp [init_depth_max_range, hfirst]
    simp only [fit_branch_taken, Bool.and_eq_false_imp, Bool.not_eq_true',
      decide_eq_false_iff_not, decide_eq_true_eq, hinit, hdepth_eq]
    intro _
    exact not_lt.mpr (le_of_lt hgt)
  obtain ⟨hb, hds, _, hdmr⟩ := calculate_optimized_attenuation_of_no_fit solve m
    background_mean color_1_obs color_2_obs hnofit
  exact ⟨hinit, hnofit, by rw [hdmr, hinit], hb, hds⟩

/-- Witness of C13: the first call at depth `0`, with `depth_max_range = -1`. -/
theorem key_strictly_above_depth_witness :
    ((demo_model ℚ 0 (-1)).depth + 0.25 < round_depth (demo_model ℚ 0 (-1)).depth ∧
      round_depth (demo_model ℚ 0 (-1)).depth ≤ (demo_model ℚ 0 (-1)).depth + 0.75 ∧
      round_depth (demo_model ℚ 0 (-1)).depth ≠ (demo_model ℚ 0 (-1)).depth) ∧
    ((init_depth_max_range (demo_model ℚ 0 (-1))).depth_max_range =
        round_depth (demo_model ℚ 0 (-1)).depth ∧
      fit_branch_taken (demo_model ℚ 0 (-1)) = false ∧
      (calculate_optimized_attenuation (fun _ _ x => x) (demo_model ℚ 0 (-1))
        (fun _ => 5) (fun _ => 3) (fun _ => 4)).depth_max_range =
          round_depth (demo_model ℚ 0 (-1)).depth ∧
      (calculate_optimized_attenuation (fun _ _ x => x) (demo_model ℚ 0 (-1))
        (fun _ => 5) (fun _ => 3) (fun _ => 4)).backscatter_att =
          (demo_model ℚ 0 (-1)).backscatter_att ∧
      (calculate_optimized_attenuation (fun _ _ x => x) (demo_model ℚ 0 (-1))
        (fun _ => 5) (fun _ => 3) (fun _ => 4)).direct_signal_att =
          (demo_model ℚ 0 (-1)).direct_signal_att) :=
  ⟨(key_strictly_above_depth (fun _ _ x => x) (demo_model ℚ 0 (-1)) (fun _ => 5) (fun _ => 3)
      (fun _ => 4) (by norm_num [demo_model])).1,
   (key_strictly_above_depth (fun _ _ x => x) (demo_model ℚ 0 (-1)) (fun _ => 5) (fun _ => 3)
      (fun _ => 4) (by norm_num [demo_model])).2 rfl⟩

/-- C14. The fit can run without samples: after a call of `calculate_optimized_attenuation`
whose depth exceeds `depth_max_range + RANGE` (and `depth_max_range`), the three sample
sequences are empty and a second call at the same depth executes the least-squares branch on
them: it overwrites `backscatter_att` and `direct_signal_att` of the three channels with the
solver's results on the empty sequence and advances `depth_max_range` by `RANGE` again. -/
theorem fit_runs_without_samples {α : Type} [LinearOrderedField α] [FloorRing α]
    (solve : (input_vector α × α → parameter_vector α → α) →
      List (input_vector α × α) → parameter_vector α → parameter_vector α)
    (m : NewModel α) (background_mean color_1_obs color_2_obs : Scalar α)
    (background_mean2 color_1_obs2 color_2_obs2 : Scalar α)
    (hinit : m.depth_max_range ≠ -1) (hinit2 : m.depth_max_range + m.RANGE ≠ -1)
    (h1 : m.depth > m.depth_max_range) (h2 : m.depth > m.depth_max_range + m.RANGE) :
    (calculate_optimized_attenuation solve m background_mean color_1_obs
        color_2_obs).observed_samples_blue = [] ∧
    (calculate_optimized_attenuation solve m background_mean color_1_obs
        color_2_obs).observed_samples_green = [] ∧
    (calculate_optimized_attenuation solve m background_mean color_1_obs
        color_2_obs).observed_samples_red = [] ∧
    fit_branch_taken (calculate_optimized_attenuation solve m background_mean color_1_obs
        color_2_obs) = true ∧
    (∀ c, c < 3 →
      (calculate_optimized_attenuation solve
        (calculate_optimized_attenuation solve m background_mean color_1_obs color_2_obs)
        background_mean2 color_1_obs2 color_2_obs2).backscatter_att c =
          (solve residual [] (1, 1)).1 ∧
      (calculate_optimized_attenuation solve
        (calculate_optimized_attenuation solve m background_mean color_1_obs color_2_obs)
        background_mean2 color_1_obs2 color_2_obs2).direct_signal_att c =
          (solve residual [] (1, 1)).2) ∧
    (calculate_optimized_attenuation solve
      (calculate_optimized_attenuation solve m background_mean color_1_obs color_2_obs)
      background_mean2 color_1_obs2 color_2_obs2).depth_max_range =
        (calculate_optimized_attenuation solve m background_mean color_1_obs
          color_2_obs).depth_max_range + m.RANGE := by
  have hfit1 : fit_branch_taken m = true := (fit_branch_taken_of_initialised m hinit).mpr h1
  obtain ⟨_, _, hb, hg, hr, hdmr⟩ := calculate_optimized_attenuation_of_fit solve m
    background_mean color_1_obs color_2_obs hfit1
  obtain ⟨hdepth, hrange⟩ := calculate_optimized_attenuation_frame solve m background_mean
    color_1_obs color_2_obs
  have hdmr1 : (calculate_optimized_attenuation solve m background_mean color_1_obs
      color_2_obs).depth_max_range = m.depth_max_range + m.RANGE := by
    rw [hdmr]; simp [init_depth_max_range, hinit]
  have hinit1 : (calculate_optimized_attenuation solve m background_mean color_1_obs
      color_2_obs).depth_max_range ≠ -1 := by rw [hdmr1]; exact hinit2
  have hfit2 : fit_branch_taken (calculate_optimized_attenuation solve m background_mean
      color_1_obs color_2_obs) = true := by
    rw [fit_branch_taken_of_initialised _ hinit1, hdepth, hdmr1]
    exact h2
  obtain ⟨hbs2, hds2, _, _, _, hdmr2⟩ := calculate_optimized_attenuation_of_fit solve
    (calculate_optimized_attenuation solve m background_mean color_1_obs color_2_obs)
    background_mean2 color_1_obs2 color_2_obs2 hfit2
  refine ⟨hb, hg, hr, hfit2, ?_, ?_⟩
  · intro c hc
    rw [hbs2, hds2, hb, hg, hr]
    interval_cases c <;> simp [Function.update]
  · rw [hdmr2, hrange]
    simp [init_depth_max_range, hinit1]

/-- Witness of C14: two calls at depth `10` from `depth_max_range = 2` with `RANGE = 1`; the
solver used for the evaluation returns `(7, 8)` whatever the samples are. -/
theorem fit_runs_without_samples_witness :
    (calculate_optimized_attenuation (fun _ _ _ => (7, 8))
      (calculate_optimized_attenuation (fun _ _ _ => (7, 8)) (demo_model ℚ 10 2)
        (fun _ => 5) (fun _ => 3) (fun _ => 4))
      (fun _ => 5) (fun _ => 3) (fun _ => 4)).backscatter_att 0 = 7 ∧
    (calculate_optimized_attenuation (fun _ _ _ => (7, 8))
      (calculate_optimized_attenuation (fun _ _ _ => (7, 8)) (demo_model ℚ 10 2)
        (fun _ => 5) (fun _ => 3) (fun _ => 4))
      (fun _ => 5) (fun _ => 3) (fun _ => 4)).direct_signal_att 0 = 8 ∧
    (calculate_optimized_attenuation (fun _ _ _ => (7, 8))
      (calculate_optimized_attenuation (fun _ _ _ => (7, 8)) (demo_model ℚ 10 2)
        (fun _ => 5) (fun _ => 3) (fun _ => 4))
      (fun _ => 5) (fun _ => 3) (fun _ => 4)).depth_max_range = 4 := by
  have h := fit_runs_without_samples (fun _ _ _ => ((7 : ℚ), (8 : ℚ))) (demo_model ℚ 10 2)
    (fun _ => 5) (fun _ => 3) (fun _ => 4) (fun _ => 5) (fun _ => 3) (fun _ => 4)
    (by norm_num [demo_model]) (by norm_num [demo_model]) (by norm_num [demo_model])
    (by norm_num [demo_model])
  obtain ⟨_, _, _, _, hc, hd⟩ := h
  refine ⟨(hc 0 (by norm_num)).1, (hc 0 (by norm_num)).2, ?_⟩
  rw [hd]
  norm_num [calculate_optimized_attenuation, demo_model, save_data]

end underwater_color_enhance
